import Mathlib

/-!
# PCM512x codec driver and IQaudIO machine driver

A shallow embedding of the clock, format and power configuration paths of
`sound/soc/codecs/pcm512x.c` and of `sound/soc/davinci/davinci-iqaudio.c`.

Conventions of the embedding

* A C `int` is an `Int` kept in the signed 32-bit range by `wrap32` after every
  operation that can leave it (the kernel is built with wrapping signed
  arithmetic). An `unsigned int` or `unsigned long` input (sample rate, frame
  bits, clock frequencies) is an `Int` as well, meant to lie in `[0, 2^32)`, and
  `wrap32` is its conversion to `int`. Register addresses, masks and values are
  `Nat`s, and `toU32` is the conversion of an `int` expression that is passed
  where an `unsigned int` is expected.
* Integer division and remainder have no result when the divisor is zero or
  when the quotient overflows (`INT_MIN / -1`): `cdiv` and `cmod` return `none`,
  and so does every function that reaches such a division.
* The register map is the kernel's; it is modelled as a function from register
  address to value, together with the list of outcomes of the coming accesses
  (`faults`, `0` meaning success) and the list of the updates issued so far
  (`log`).
* The constants of `pcm512x.h` are not among the sources; the functions take them
  as a parameter `h : Pcm512xHeader`, and the theorems hold for every header.
  They are small non-negative constants, so they are `Nat`s and are passed to
  the register map as they are.
-/

namespace BbbDac

/-! ## Machine integers -/

/-- Reduction of an integer to the signed 32-bit range (two's complement). -/
def wrap32 (x : Int) : Int := (x + 2147483648) % 4294967296 - 2147483648

/-- Conversion of an `int` value to `unsigned int`. -/
def toU32 (x : Int) : Nat := (x % 4294967296).toNat

/-- C division of two `int`s: truncation toward zero; no result for a zero
divisor, nor for `INT_MIN / -1`, whose quotient is not an `int`. -/
def cdiv (a b : Int) : Option Int :=
  if b = 0 ∨ (a = -2147483648 ∧ b = -1) then none else some (wrap32 (Int.tdiv a b))

/-- C remainder of two `int`s: sign of the dividend; no result for a zero divisor,
nor for `INT_MIN % -1`, which is undefined together with the quotient. -/
def cmod (a b : Int) : Option Int :=
  if b = 0 ∨ (a = -2147483648 ∧ b = -1) then none else some (wrap32 (Int.tmod a b))

/-- The errno value `EINVAL`. -/
def EINVAL : Int := 22

/-! ## Kernel constants (`include/sound/soc-dai.h`, `include/sound/soc.h`)

The values are those of the kernel headers. `SND_SOC_DAIFMT_NB_NF` is `0 << 8`
in current kernels and was `1 << 8` in older ones; the statements below do not
depend on which. -/

def SND_SOC_DAIFMT_I2S : Nat := 1
def SND_SOC_DAIFMT_RIGHT_J : Nat := 2
def SND_SOC_DAIFMT_LEFT_J : Nat := 3
def SND_SOC_DAIFMT_NB_NF : Nat := 0 <<< 8
def SND_SOC_DAIFMT_NB_IF : Nat := 2 <<< 8
def SND_SOC_DAIFMT_IB_NF : Nat := 3 <<< 8
def SND_SOC_DAIFMT_IB_IF : Nat := 4 <<< 8
def SND_SOC_DAIFMT_CBM_CFM : Nat := 1 <<< 12
def SND_SOC_DAIFMT_CBS_CFS : Nat := 4 <<< 12
def SND_SOC_DAIFMT_FORMAT_MASK : Nat := 0x000f
def SND_SOC_DAIFMT_INV_MASK : Nat := 0x0f00
def SND_SOC_DAIFMT_MASTER_MASK : Nat := 0xf000
def SND_SOC_CLOCK_IN : Int := 0

/-- The bias levels of `enum snd_soc_bias_level`. -/
inductive snd_soc_bias_level where
  | SND_SOC_BIAS_OFF
  | SND_SOC_BIAS_STANDBY
  | SND_SOC_BIAS_PREPARE
  | SND_SOC_BIAS_ON
  deriving DecidableEq, Repr

/-- The rates of `SNDRV_PCM_RATE_8000_192000`, the rates the codec DAI advertises. -/
def SNDRV_PCM_RATE_8000_192000 : List Int :=
  [8000, 11025, 16000, 22050, 32000, 44100, 48000, 64000, 88200, 96000, 176400, 192000]

/-- The sample formats the codec DAI declares (`pcm512x_dai.playback.formats`). -/
inductive DaiFormat where
  | S16_LE
  | S24_LE
  | S32_LE
  deriving DecidableEq, Repr

/-- The kernel's `snd_pcm_format_width` on the declared formats. -/
def snd_pcm_format_width : DaiFormat → Int
  | .S16_LE => 16
  | .S24_LE => 24
  | .S32_LE => 32

/-! ## The register map -/

/-- One call of `regmap_update_bits`: register, mask and value. -/
structure RegUpdate where
  reg : Nat
  mask : Nat
  val : Nat
  deriving DecidableEq, Repr

/-- The register map: contents, outcomes of the coming accesses, updates issued. -/
structure Regmap where
  regs : Nat → Nat
  faults : List Int
  log : List RegUpdate

/-- The value `a & ~m` of unsigned operands: `a` with the bits of `m` cleared. -/
def and_not (a m : Nat) : Nat := a ^^^ (a &&& m)

/-- The kernel's `regmap_update_bits`: the access takes the next outcome of
`faults`; when that is a non-zero code the register is left alone and the code
is returned, otherwise the register becomes `(orig & ~mask) | (val & mask)`. -/
def regmap_update_bits (map : Regmap) (reg mask val : Nat) : Int × Regmap :=
  let ret := map.faults.headD 0
  let issued : Regmap :=
    { map with faults := map.faults.tail, log := map.log ++ [⟨reg, mask, val⟩] }
  if ret ≠ 0 then (ret, issued)
  else
    (0, { issued with
          regs := fun r =>
            if r = reg then and_not (map.regs reg) mask ||| (val &&& mask)
            else map.regs r })

/-! ## `pcm512x.h` -/

/-- The constants of `pcm512x.h` that the modelled functions use.
`PCM512x_MASTER_MODE` names both a register and a value of `enum pcm512x_mode`
in the source, so it is one field. -/
structure Pcm512xHeader where
  PCM512x_POWER : Nat
  PCM512x_RQST : Nat
  PCM512x_MASTER_MODE : Nat
  PCM512x_SLAVE_MODE : Nat
  PCM512x_AUDIO_RATE : Nat
  PCM512x_NON_AUDIO_RATE : Nat
  PCM512x_MASTER_CLKDIV_1 : Nat
  PCM512X_DBCK_MASK : Nat
  PCM512x_MASTER_CLKDIV_2 : Nat
  PCM512X_DLRCK_MASK : Nat
  PCM512x_ALEN_16 : Nat
  PCM512x_ALEN_20 : Nat
  PCM512x_ALEN_24 : Nat
  PCM512x_ALEN_32 : Nat
  PCM512x_ALEN_MASK : Nat
  PCM512x_IDAC_1 : Nat
  PCM512x_IDAC_2 : Nat
  PCM512x_IDAC_MASK : Nat
  PCM512x_DSP_CLKDIV : Nat
  PCM512x_DDAC_MASK : Nat
  PCM512x_OSR_CLKDIV : Nat
  PCM512x_DOSR_MASK : Nat
  PCM512x_FS_SPEED_MODE : Nat
  PCM512x_FSSP_MASK : Nat
  PCM512x_PLL_COEFF_0 : Nat
  PCM512x_PLL_COEFF_1 : Nat
  PCM512x_PLL_COEFF_2 : Nat
  PCM512x_PLL_COEFF_3 : Nat
  PCM512x_PLL_COEFF_4 : Nat
  PCM512x_PLL_PPDV_MASK : Nat
  PCM512x_PLL_PJDV_MASK : Nat
  PCM512x_PLL_PDDV_MASK_MS : Nat
  PCM512x_PLL_PDDV_MASK_LS : Nat
  PCM512x_PLL_PRDV_MASK : Nat
  PCM512x_I2S_1 : Nat
  PCM512x_AFMT_MASK : Nat
  PCM512x_AFMT_I2S : Nat
  PCM512x_AFMT_RTJ : Nat
  PCM512x_AFMT_LTJ : Nat
  PCM512x_RBCK : Nat
  PCM512x_RLRK : Nat
  PCM512x_BCLK_LRCLK_CFG : Nat
  PCM512x_BCKO : Nat
  PCM512x_LRKO : Nat
  PCM512x_BCKP : Nat

/-- An example header, used where a concrete one is needed (instances and
counterexamples): register addresses as in the PCM512x data sheet, page 0 at
0x100, and masks of the width of their fields. No general statement depends
on it. -/
def datasheetHeader : Pcm512xHeader where
  PCM512x_POWER := 0x102
  PCM512x_RQST := 1 <<< 4
  PCM512x_MASTER_MODE := 0x10c
  PCM512x_SLAVE_MODE := 0
  PCM512x_AUDIO_RATE := 0
  PCM512x_NON_AUDIO_RATE := 1
  PCM512x_MASTER_CLKDIV_1 := 0x120
  PCM512X_DBCK_MASK := 0x7f
  PCM512x_MASTER_CLKDIV_2 := 0x121
  PCM512X_DLRCK_MASK := 0xff
  PCM512x_ALEN_16 := 0
  PCM512x_ALEN_20 := 1
  PCM512x_ALEN_24 := 2
  PCM512x_ALEN_32 := 3
  PCM512x_ALEN_MASK := 3
  PCM512x_IDAC_1 := 0x123
  PCM512x_IDAC_2 := 0x124
  PCM512x_IDAC_MASK := 0xff
  PCM512x_DSP_CLKDIV := 0x11b
  PCM512x_DDAC_MASK := 0x7f
  PCM512x_OSR_CLKDIV := 0x11e
  PCM512x_DOSR_MASK := 0x7f
  PCM512x_FS_SPEED_MODE := 0x122
  PCM512x_FSSP_MASK := 3
  PCM512x_PLL_COEFF_0 := 0x114
  PCM512x_PLL_COEFF_1 := 0x115
  PCM512x_PLL_COEFF_2 := 0x116
  PCM512x_PLL_COEFF_3 := 0x117
  PCM512x_PLL_COEFF_4 := 0x118
  PCM512x_PLL_PPDV_MASK := 0x0f
  PCM512x_PLL_PJDV_MASK := 0x3f
  PCM512x_PLL_PDDV_MASK_MS := 0x3f
  PCM512x_PLL_PDDV_MASK_LS := 0xff
  PCM512x_PLL_PRDV_MASK := 0x0f
  PCM512x_I2S_1 := 0x128
  PCM512x_AFMT_MASK := 3 <<< 4
  PCM512x_AFMT_I2S := 0 <<< 4
  PCM512x_AFMT_RTJ := 2 <<< 4
  PCM512x_AFMT_LTJ := 3 <<< 4
  PCM512x_RBCK := 1 <<< 1
  PCM512x_RLRK := 1 <<< 0
  PCM512x_BCLK_LRCLK_CFG := 0x109
  PCM512x_BCKO := 1 <<< 4
  PCM512x_LRKO := 1 <<< 0
  PCM512x_BCKP := 1 <<< 5

/-! ## Driver state -/

/-- The fields of `struct pcm512x_priv` that the modelled functions read or
write; `sclk_rate` is the value of `clk_get_rate(pcm512x->sclk)`. -/
structure pcm512x_priv where
  regmap : Regmap
  sclk_rate : Int
  ctype : Int
  mode : Int
  mclk : Int

/-- The codec: its driver data and `codec->dapm.bias_level`. -/
structure snd_soc_codec where
  drvdata : pcm512x_priv
  bias_level : snd_soc_bias_level

/-- The hardware parameters `pcm512x_hw_params` reads: `params_rate`, the value
of the frame-bits interval, and `snd_pcm_format_width(params_format(params))`. -/
structure snd_pcm_hw_params where
  rate : Int
  frame_bits : Int
  format_width : Int

/-- One call of `snd_soc_dai_set_sysclk` on the codec DAI. -/
structure SysclkCall where
  clk_id : Int
  freq : Int
  dir : Int
  deriving DecidableEq, Repr

/-! ## `davinci-iqaudio.c` -/

/-- The function `iqaudio_hw_params`: the return value and the calls of
`snd_soc_dai_set_sysclk` it makes, for the sample rate `params_rate(params)`. -/
def iqaudio_hw_params (rate : Int) : Int × List SysclkCall :=
  if rate % 11025 = 0 then
    (0, [⟨0, 22579200, SND_SOC_CLOCK_IN⟩])
  else if rate % 8000 = 0 then
    (0, [⟨0, 24576000, SND_SOC_CLOCK_IN⟩])
  else
    (0, [])

/-- The format of the link `iqaudio_dai` (`.dai_fmt`). -/
def iqaudio_dai_fmt : Nat :=
  SND_SOC_DAIFMT_I2S ||| SND_SOC_DAIFMT_CBM_CFM ||| SND_SOC_DAIFMT_NB_IF

/-! ## `pcm512x.c` -/

/-- The function `pcm512x_set_bias_level`. -/
def pcm512x_set_bias_level (h : Pcm512xHeader) (codec : snd_soc_codec)
    (level : snd_soc_bias_level) : Int × snd_soc_codec :=
  let pcm512x := codec.drvdata
  match level with
  | .SND_SOC_BIAS_ON | .SND_SOC_BIAS_PREPARE =>
    (0, { codec with bias_level := level })
  | .SND_SOC_BIAS_STANDBY =>
    let r := regmap_update_bits pcm512x.regmap h.PCM512x_POWER h.PCM512x_RQST 0
    let codec1 : snd_soc_codec := { codec with drvdata := { pcm512x with regmap := r.2 } }
    if r.1 ≠ 0 then (r.1, codec1)
    else (0, { codec1 with bias_level := level })
  | .SND_SOC_BIAS_OFF =>
    let r := regmap_update_bits pcm512x.regmap h.PCM512x_POWER h.PCM512x_RQST h.PCM512x_RQST
    let codec1 : snd_soc_codec := { codec with drvdata := { pcm512x with regmap := r.2 } }
    if r.1 ≠ 0 then (r.1, codec1)
    else (0, { codec1 with bias_level := level })

/-- The sample-width switch of `pcm512x_hw_params`: the code `alen` of a
supported width, no code for any other width. -/
def hw_alen (h : Pcm512xHeader) (width : Int) : Option Nat :=
  if width = 16 then some h.PCM512x_ALEN_16
  else if width = 20 then some h.PCM512x_ALEN_20
  else if width = 24 then some h.PCM512x_ALEN_24
  else if width = 32 then some h.PCM512x_ALEN_32
  else none

/-- The value `bclk_mclk_ratio = mclk / rate / lrclk_bclk_ratio`. -/
def hw_bclk_mclk_ratio (mclk rate lrclk_bclk_ratio : Int) : Option Int :=
  (cdiv mclk rate).bind fun q => cdiv q lrclk_bclk_ratio

/-- The value `ddsp`: `4*mclk/(1024*rate)`, raised to 2 when it is less. -/
def hw_ddsp (mclk rate : Int) : Option Int :=
  (cdiv (wrap32 (4 * mclk)) (wrap32 (1024 * rate))).map fun ddsp =>
    if ddsp < 2 then 2 else ddsp

/-- The value `dosr = mclk/(64*rate)`. -/
def hw_dosr (mclk rate : Int) : Option Int :=
  cdiv mclk (wrap32 (64 * rate))

/-- The speed mode `fssp` of a sampling rate. -/
def hw_fssp (rate : Int) : Int :=
  if rate ≤ 48000 then 0
  else if rate ≤ 96000 then 1
  else if rate ≤ 192000 then 2
  else 3

/-- The value `idac = (4*mclk)/ddsp/rate`. -/
def hw_idac (mclk ddsp rate : Int) : Option Int :=
  (cdiv (wrap32 (4 * mclk)) ddsp).bind fun q => cdiv q rate

/-- The function `pcm512x_hw_params`; `none` when a division has no result. -/
def pcm512x_hw_params (h : Pcm512xHeader) (pcm512x : pcm512x_priv)
    (params : snd_pcm_hw_params) : Option (Int × pcm512x_priv) :=
  if pcm512x.mode = (h.PCM512x_MASTER_MODE : Int) then do
    let mclk := pcm512x.mclk
    let rate := wrap32 params.rate
    let lrclk_bclk_ratio := wrap32 params.frame_bits
    let bclk_mclk_ratio ← hw_bclk_mclk_ratio mclk rate lrclk_bclk_ratio
    let m1 := (regmap_update_bits pcm512x.regmap h.PCM512x_MASTER_CLKDIV_1
      h.PCM512X_DBCK_MASK (toU32 (bclk_mclk_ratio - 1))).2
    let m2 := (regmap_update_bits m1 h.PCM512x_MASTER_CLKDIV_2
      h.PCM512X_DLRCK_MASK (toU32 (lrclk_bclk_ratio - 1))).2
    match hw_alen h params.format_width with
    | none => some (-EINVAL, { pcm512x with regmap := m2 })
    | some alen =>
      let m3 := (regmap_update_bits m2 h.PCM512x_IDAC_1 h.PCM512x_ALEN_MASK alen).2
      let ddsp ← hw_ddsp mclk rate
      let m4 := (regmap_update_bits m3 h.PCM512x_DSP_CLKDIV
        h.PCM512x_DDAC_MASK (toU32 (ddsp - 1))).2
      let dosr ← hw_dosr mclk rate
      let m5 := (regmap_update_bits m4 h.PCM512x_OSR_CLKDIV
        h.PCM512x_DOSR_MASK (toU32 (dosr - 1))).2
      let fssp := hw_fssp rate
      let m6 := (regmap_update_bits m5 h.PCM512x_FS_SPEED_MODE
        h.PCM512x_FSSP_MASK (toU32 fssp)).2
      let idac ← hw_idac mclk ddsp rate
      let m7 := (regmap_update_bits m6 h.PCM512x_IDAC_1 h.PCM512x_IDAC_MASK
        ((toU32 idac &&& (h.PCM512x_IDAC_MASK <<< 8)) >>> 8)).2
      let m8 := (regmap_update_bits m7 h.PCM512x_IDAC_2 h.PCM512x_IDAC_MASK
        (toU32 idac &&& h.PCM512x_IDAC_MASK)).2
      some (0, { pcm512x with regmap := m8 })
  else
    some (0, pcm512x)

/-- The pre-divider `P` of `pcm512x_set_sysclk` for the reference clock `refclk`. -/
def pll_P (refclk : Int) : Int :=
  if refclk > 20000000 then wrap32 (Int.tdiv refclk 20000000 + 1) else 1

/-- The integer part `J = P * pllclk / refclk` of the multiplication factor. -/
def pll_J (P pllclk refclk : Int) : Option Int :=
  cdiv (wrap32 (P * pllclk)) refclk

/-- The fractional part `D` of the multiplication factor:
`temp = (P * pllclk) % refclk`, a 64-bit value, and `D = div_s64(10000*temp, refclk)`.
The product `10000*temp` stays within 64 bits since `temp` is an `int`. -/
def pll_D (P pllclk refclk : Int) : Option Int :=
  (cmod (wrap32 (P * pllclk)) refclk).map fun temp =>
    wrap32 (Int.tdiv (10000 * temp) refclk)

/-- The function `pcm512x_set_sysclk`; `none` when a division has no result. -/
def pcm512x_set_sysclk (h : Pcm512xHeader) (pcm512x : pcm512x_priv)
    (_clk_id : Int) (freq : Int) (_dir : Int) : Option (Int × pcm512x_priv) :=
  let pcm512x : pcm512x_priv := { pcm512x with mclk := wrap32 freq }
  if pcm512x.ctype = (h.PCM512x_NON_AUDIO_RATE : Int) then do
    let refclk := wrap32 pcm512x.sclk_rate
    let pllclk := wrap32 (4 * freq)
    let P := pll_P refclk
    let R : Int := 1
    let J ← pll_J P pllclk refclk
    let D ← pll_D P pllclk refclk
    let m1 := (regmap_update_bits pcm512x.regmap h.PCM512x_PLL_COEFF_0
      h.PCM512x_PLL_PPDV_MASK (toU32 (P - 1))).2
    let m2 := (regmap_update_bits m1 h.PCM512x_PLL_COEFF_1
      h.PCM512x_PLL_PJDV_MASK (toU32 J)).2
    let m3 := (regmap_update_bits m2 h.PCM512x_PLL_COEFF_2
      h.PCM512x_PLL_PDDV_MASK_MS
      ((toU32 D &&& (h.PCM512x_PLL_PDDV_MASK_MS <<< 8)) >>> 8)).2
    let m4 := (regmap_update_bits m3 h.PCM512x_PLL_COEFF_3
      h.PCM512x_PLL_PDDV_MASK_LS (toU32 D &&& h.PCM512x_PLL_PDDV_MASK_LS)).2
    let m5 := (regmap_update_bits m4 h.PCM512x_PLL_COEFF_4
      h.PCM512x_PLL_PRDV_MASK (toU32 (R - 1))).2
    some (0, { pcm512x with regmap := m5 })
  else
    some (0, pcm512x)

/-- The first switch of `pcm512x_set_dai_fmt`, on `fmt & SND_SOC_DAIFMT_MASTER_MASK`:
the values of `master` and `bck_lrck_cfg` and the mode it stores, nothing in the
default case. -/
def fmt_master_switch (h : Pcm512xHeader) (fmt : Nat) : Option (Nat × Nat × Int) :=
  let master : Nat := 0
  let bck_lrck_cfg : Nat := 0
  if fmt &&& SND_SOC_DAIFMT_MASTER_MASK = SND_SOC_DAIFMT_CBM_CFM then
    some (master ||| (h.PCM512x_RBCK ||| h.PCM512x_RLRK),
      bck_lrck_cfg ||| (h.PCM512x_BCKO ||| h.PCM512x_LRKO), (h.PCM512x_MASTER_MODE : Int))
  else if fmt &&& SND_SOC_DAIFMT_MASTER_MASK = SND_SOC_DAIFMT_CBS_CFS then
    some (master, bck_lrck_cfg, (h.PCM512x_SLAVE_MODE : Int))
  else none

/-- The second switch, on `fmt & SND_SOC_DAIFMT_FORMAT_MASK`: the value of
`i2s_cfg`, nothing in the default case. -/
def fmt_format_switch (h : Pcm512xHeader) (fmt : Nat) : Option Nat :=
  let i2s_cfg : Nat := 0
  if fmt &&& SND_SOC_DAIFMT_FORMAT_MASK = SND_SOC_DAIFMT_I2S then
    some (i2s_cfg ||| h.PCM512x_AFMT_I2S)
  else if fmt &&& SND_SOC_DAIFMT_FORMAT_MASK = SND_SOC_DAIFMT_RIGHT_J then
    some (i2s_cfg ||| h.PCM512x_AFMT_RTJ)
  else if fmt &&& SND_SOC_DAIFMT_FORMAT_MASK = SND_SOC_DAIFMT_LEFT_J then
    some (i2s_cfg ||| h.PCM512x_AFMT_LTJ)
  else none

/-- The third switch, on `fmt & SND_SOC_DAIFMT_INV_MASK`: the new value of
`bck_lrck_cfg`, nothing in the default case. -/
def fmt_inv_switch (h : Pcm512xHeader) (fmt : Nat) (bck_lrck_cfg : Nat) : Option Nat :=
  if fmt &&& SND_SOC_DAIFMT_INV_MASK = SND_SOC_DAIFMT_NB_NF ∨
      fmt &&& SND_SOC_DAIFMT_INV_MASK = SND_SOC_DAIFMT_NB_IF then
    some bck_lrck_cfg
  else if fmt &&& SND_SOC_DAIFMT_INV_MASK = SND_SOC_DAIFMT_IB_NF ∨
      fmt &&& SND_SOC_DAIFMT_INV_MASK = SND_SOC_DAIFMT_IB_IF then
    some (bck_lrck_cfg ||| h.PCM512x_BCKP)
  else none

/-- The function `pcm512x_set_dai_fmt`. -/
def pcm512x_set_dai_fmt (h : Pcm512xHeader) (pcm512x : pcm512x_priv) (fmt : Nat) :
    Int × pcm512x_priv :=
  match fmt_master_switch h fmt with
  | none => (-EINVAL, pcm512x)
  | some (master, bck_lrck_cfg, mode) =>
    let pcm512x : pcm512x_priv := { pcm512x with mode := mode }
    match fmt_format_switch h fmt with
    | none => (-EINVAL, pcm512x)
    | some i2s_cfg =>
      match fmt_inv_switch h fmt bck_lrck_cfg with
      | none => (-EINVAL, pcm512x)
      | some bck_lrck_cfg =>
        let m1 := (regmap_update_bits pcm512x.regmap h.PCM512x_I2S_1
          h.PCM512x_AFMT_MASK i2s_cfg).2
        let m2 := (regmap_update_bits m1 h.PCM512x_MASTER_MODE
          (h.PCM512x_RBCK ||| h.PCM512x_RLRK) master).2
        let m3 := (regmap_update_bits m2 h.PCM512x_BCLK_LRCLK_CFG
          (h.PCM512x_BCKO ||| h.PCM512x_LRKO ||| h.PCM512x_BCKP) bck_lrck_cfg).2
        (0, { pcm512x with regmap := m3 })

/-- The codec side of `snd_soc_dai_set_sysclk`: the calls a machine driver makes
reach `pcm512x_set_sysclk` (`pcm512x_dai_ops.set_sysclk`), one after the other. -/
def snd_soc_dai_set_sysclk (h : Pcm512xHeader) (pcm512x : pcm512x_priv) :
    List SysclkCall → Option pcm512x_priv
  | [] => some pcm512x
  | c :: cs =>
    (pcm512x_set_sysclk h pcm512x c.clk_id c.freq c.dir).bind fun r =>
      snd_soc_dai_set_sysclk h r.2 cs

/-! ## Vocabulary of the statements -/

/-- The updates `pcm512x_hw_params` issues before the sample-width switch. -/
def hw_log_ratios (h : Pcm512xHeader) (bclk_mclk_ratio lrclk_bclk_ratio : Int) :
    List RegUpdate :=
  [⟨h.PCM512x_MASTER_CLKDIV_1, h.PCM512X_DBCK_MASK, toU32 (bclk_mclk_ratio - 1)⟩,
   ⟨h.PCM512x_MASTER_CLKDIV_2, h.PCM512X_DLRCK_MASK, toU32 (lrclk_bclk_ratio - 1)⟩]

/-- The updates `pcm512x_hw_params` issues from the sample-width switch on. -/
def hw_log_rest (h : Pcm512xHeader) (alen : Nat) (ddsp dosr fssp idac : Int) :
    List RegUpdate :=
  [⟨h.PCM512x_IDAC_1, h.PCM512x_ALEN_MASK, alen⟩,
   ⟨h.PCM512x_DSP_CLKDIV, h.PCM512x_DDAC_MASK, toU32 (ddsp - 1)⟩,
   ⟨h.PCM512x_OSR_CLKDIV, h.PCM512x_DOSR_MASK, toU32 (dosr - 1)⟩,
   ⟨h.PCM512x_FS_SPEED_MODE, h.PCM512x_FSSP_MASK, toU32 fssp⟩,
   ⟨h.PCM512x_IDAC_1, h.PCM512x_IDAC_MASK,
     (toU32 idac &&& (h.PCM512x_IDAC_MASK <<< 8)) >>> 8⟩,
   ⟨h.PCM512x_IDAC_2, h.PCM512x_IDAC_MASK, toU32 idac &&& h.PCM512x_IDAC_MASK⟩]

/-- The outcome of the next register access: the head of `faults`, 0 when there
is none. -/
def next_outcome (map : Regmap) : Int := map.faults.headD 0

/-- A register map with every register 0, the given outcomes and an empty log. -/
def sampleRegmap (faults : List Int) : Regmap := ⟨fun _ => 0, faults, []⟩

/-- A driver state for `datasheetHeader`: clock type, mode and master clock as
given, a 24 MHz reference clock. -/
def sampleState (faults : List Int) (ctype mode mclk : Int) : pcm512x_priv :=
  ⟨sampleRegmap faults, 24000000, ctype, mode, mclk⟩

/-- The updates `pcm512x_set_sysclk` issues for the coefficients `P`, `J`, `D`;
the last one carries `R - 1 = 0`. -/
def sysclk_log (h : Pcm512xHeader) (P J D : Int) : List RegUpdate :=
  [⟨h.PCM512x_PLL_COEFF_0, h.PCM512x_PLL_PPDV_MASK, toU32 (P - 1)⟩,
   ⟨h.PCM512x_PLL_COEFF_1, h.PCM512x_PLL_PJDV_MASK, toU32 J⟩,
   ⟨h.PCM512x_PLL_COEFF_2, h.PCM512x_PLL_PDDV_MASK_MS,
     (toU32 D &&& (h.PCM512x_PLL_PDDV_MASK_MS <<< 8)) >>> 8⟩,
   ⟨h.PCM512x_PLL_COEFF_3, h.PCM512x_PLL_PDDV_MASK_LS,
     toU32 D &&& h.PCM512x_PLL_PDDV_MASK_LS⟩,
   ⟨h.PCM512x_PLL_COEFF_4, h.PCM512x_PLL_PRDV_MASK, 0⟩]

/-! ## The machine driver's choice of master clock -/

/-- Claim C1: for every sample rate, `iqaudio_hw_params` returns 0; it requests
22579200 Hz (clock id 0, direction `SND_SOC_CLOCK_IN`) when the rate is a
multiple of 11025, otherwise 24576000 Hz when the rate is a multiple of 8000,
and never requests any other frequency. -/
theorem C1_iqaudio_hw_params_clock (r : Int) :
    (iqaudio_hw_params r).1 = 0 ∧
    (11025 ∣ r → (iqaudio_hw_params r).2 = [⟨0, 22579200, SND_SOC_CLOCK_IN⟩]) ∧
    (¬ 11025 ∣ r → 8000 ∣ r →
      (iqaudio_hw_params r).2 = [⟨0, 24576000, SND_SOC_CLOCK_IN⟩]) ∧
    (∀ c ∈ (iqaudio_hw_params r).2, c.freq = 22579200 ∨ c.freq = 24576000) := by
  unfold iqaudio_hw_params
  by_cases h1 : r % 11025 = 0
  · have d1 : 11025 ∣ r := Int.dvd_of_emod_eq_zero h1
    simp [h1, d1]
  · have d1 : ¬ 11025 ∣ r := fun d => h1 (Int.emod_eq_zero_of_dvd d)
    by_cases h2 : r % 8000 = 0
    · simp [h1, h2, d1]
    · have d2 : ¬ 8000 ∣ r := fun d => h2 (Int.emod_eq_zero_of_dvd d)
      simp [h1, h2, d1, d2]

/-- Instance of C1 at the rates 44100 and 48000. -/
theorem C1_iqaudio_hw_params_clock_witness :
    (iqaudio_hw_params 44100).2 = [⟨0, 22579200, SND_SOC_CLOCK_IN⟩] ∧
    (iqaudio_hw_params 48000).2 = [⟨0, 24576000, SND_SOC_CLOCK_IN⟩] :=
  ⟨(C1_iqaudio_hw_params_clock 44100).2.1 (by decide),
   (C1_iqaudio_hw_params_clock 48000).2.2.1 (by decide) (by decide)⟩

/-! ## Lemmas on the machine integers and the register map -/

theorem wrap32_eq (x : Int) :
    wrap32 x = (x + 2147483648) % 4294967296 - 2147483648 := by
  rfl

theorem wrap32_of_range {x : Int} (h1 : -2147483648 ≤ x) (h2 : x ≤ 2147483647) :
    wrap32 x = x := by
  rw [wrap32_eq]; omega

theorem wrap32_range (x : Int) : -2147483648 ≤ wrap32 x ∧ wrap32 x ≤ 2147483647 := by
  rw [wrap32_eq]; omega

theorem toU32_of_range {x : Int} (h1 : 0 ≤ x) (h2 : x ≤ 4294967295) :
    toU32 x = x.toNat := by
  unfold toU32
  rw [Int.emod_eq_of_lt h1 (by omega)]

theorem cdiv_of_ne {a b : Int} (hb : b ≠ 0) (hb1 : b ≠ -1) :
    cdiv a b = some (wrap32 (Int.tdiv a b)) := by
  simp [cdiv, hb, hb1]

theorem cdiv_of_ne_min {a b : Int} (hb : b ≠ 0) (ha : a ≠ -2147483648) :
    cdiv a b = some (wrap32 (Int.tdiv a b)) := by
  simp [cdiv, hb, ha]

theorem cdiv_of_pos {a b : Int} (hb : 0 < b) : cdiv a b = some (wrap32 (Int.tdiv a b)) :=
  cdiv_of_ne (by omega) (by omega)

theorem cmod_of_pos {a b : Int} (hb : 0 < b) : cmod a b = some (wrap32 (Int.tmod a b)) := by
  have h0 : b ≠ 0 := by omega
  have h1 : b ≠ -1 := by omega
  simp [cmod, h0, h1]

theorem cdiv_of_nonneg {a b : Int} (ha : 0 ≤ a) (ha2 : a ≤ 2147483647) (hb : 0 < b) :
    cdiv a b = some (a / b) := by
  have q0 : 0 ≤ a / b := Int.ediv_nonneg ha (by omega)
  have q1 : a / b ≤ a := Int.ediv_le_self b ha
  rw [cdiv_of_pos hb, Int.tdiv_eq_ediv ha (by omega),
    wrap32_of_range (by omega) (by omega)]

/-- The ratio `mclk / rate / lrclk_bclk_ratio` has a value when both divisors are
positive. -/
theorem hw_bclk_of_pos {mclk rate fb : Int} (hr : 0 < rate) (hf : 0 < fb) :
    ∃ ratio, hw_bclk_mclk_ratio mclk rate fb = some ratio := by
  unfold hw_bclk_mclk_ratio
  rw [cdiv_of_pos hr, Option.some_bind, cdiv_of_pos hf]
  exact ⟨_, rfl⟩

/-- The ratio `mclk / rate / lrclk_bclk_ratio` has a value when the master clock
is a non-negative `int`, the rate positive and the second divisor non-zero. -/
theorem hw_bclk_of_nonneg {mclk rate fb : Int} (hm0 : 0 ≤ mclk)
    (hm1 : mclk ≤ 2147483647) (hr : 0 < rate) (hf : fb ≠ 0) :
    ∃ ratio, hw_bclk_mclk_ratio mclk rate fb = some ratio := by
  have q0 : 0 ≤ mclk / rate := Int.ediv_nonneg hm0 (by omega)
  unfold hw_bclk_mclk_ratio
  rw [cdiv_of_nonneg hm0 hm1 hr, Option.some_bind, cdiv_of_ne_min hf (by omega)]
  exact ⟨_, rfl⟩

theorem regmap_update_bits_log (map : Regmap) (reg mask val : Nat) :
    (regmap_update_bits map reg mask val).2.log = map.log ++ [⟨reg, mask, val⟩] := by
  unfold regmap_update_bits
  dsimp only
  split_ifs <;> rfl

theorem regmap_update_bits_faults (map : Regmap) (reg mask val : Nat) :
    (regmap_update_bits map reg mask val).2.faults = map.faults.tail := by
  unfold regmap_update_bits
  dsimp only
  split_ifs <;> rfl

theorem regmap_update_bits_ret (map : Regmap) (reg mask val : Nat) :
    (regmap_update_bits map reg mask val).1 = map.faults.headD 0 := by
  unfold regmap_update_bits
  dsimp only
  split_ifs with hf
  · rfl
  · exact (not_not.mp hf).symm

theorem regmap_update_bits_regs_fail (map : Regmap) (reg mask val : Nat)
    (hf : map.faults.headD 0 ≠ 0) :
    (regmap_update_bits map reg mask val).2.regs = map.regs := by
  unfold regmap_update_bits
  dsimp only
  rw [if_pos hf]

theorem regmap_update_bits_regs_ok (map : Regmap) (reg mask val : Nat)
    (hf : map.faults.headD 0 = 0) (r : Nat) :
    (regmap_update_bits map reg mask val).2.regs r =
      if r = reg then and_not (map.regs reg) mask ||| (val &&& mask) else map.regs r := by
  unfold regmap_update_bits
  dsimp only
  rw [if_neg (not_not.mpr hf)]

theorem testBit_and_not (a m i : Nat) :
    (and_not a m).testBit i = (a.testBit i && !m.testBit i) := by
  unfold and_not
  rw [Nat.testBit_xor, Nat.testBit_and]
  cases a.testBit i <;> cases m.testBit i <;> rfl


/-! ## The hardware-parameter path in master mode -/

theorem hw_ddsp_of_ne {mclk rate : Int} (h1024 : wrap32 (1024 * rate) ≠ 0) :
    ∃ ddsp, hw_ddsp mclk rate = some ddsp ∧ 2 ≤ ddsp := by
  have h1 : wrap32 (1024 * rate) ≠ -1 := by
    simp only [wrap32_eq]
    omega
  unfold hw_ddsp
  rw [cdiv_of_ne h1024 h1]
  refine ⟨_, rfl, ?_⟩
  dsimp only
  split_ifs <;> omega

theorem wrap32_64_ne {rate : Int} (h1024 : wrap32 (1024 * rate) ≠ 0) :
    wrap32 (64 * rate) ≠ 0 := by
  simp only [wrap32_eq] at *
  omega

theorem wrap32_64_ne_neg_one (rate : Int) : wrap32 (64 * rate) ≠ -1 := by
  simp only [wrap32_eq]
  omega

/-- In master mode, when the clock ratio has a value and the width is unsupported,
`pcm512x_hw_params` issues the two ratio updates and returns `-EINVAL`. -/
theorem hw_params_master_einval (h : Pcm512xHeader) (s : pcm512x_priv)
    (p : snd_pcm_hw_params)
    (hm : s.mode = (h.PCM512x_MASTER_MODE : Int))
    (ratio0 : Int)
    (hratio : hw_bclk_mclk_ratio s.mclk (wrap32 p.rate) (wrap32 p.frame_bits) =
      some ratio0)
    (ha : hw_alen h p.format_width = none) :
    ∃ ratio s1,
      hw_bclk_mclk_ratio s.mclk (wrap32 p.rate) (wrap32 p.frame_bits) = some ratio ∧
      pcm512x_hw_params h s p = some (-EINVAL, s1) ∧
      s1.regmap.log = s.regmap.log ++ hw_log_ratios h ratio (wrap32 p.frame_bits) := by
  have key : ∃ s1, pcm512x_hw_params h s p = some (-EINVAL, s1) ∧
      s1.regmap.log = s.regmap.log ++ hw_log_ratios h ratio0 (wrap32 p.frame_bits) := by
    unfold pcm512x_hw_params
    rw [if_pos hm]
    simp only [hratio, ha, Option.bind_eq_bind, Option.some_bind, bind, pure]
    exact ⟨_, rfl, by simp [regmap_update_bits_log, hw_log_ratios]⟩
  obtain ⟨s1, k1, k2⟩ := key
  exact ⟨ratio0, s1, hratio, k1, k2⟩

/-- In master mode, when the clock ratio has a value, the rate is a positive `int`,
`1024*rate` is non-zero and the width is supported, `pcm512x_hw_params` issues
all eight updates and returns 0. -/
theorem hw_params_master_ok (h : Pcm512xHeader) (s : pcm512x_priv)
    (p : snd_pcm_hw_params) (alen : Nat)
    (hm : s.mode = (h.PCM512x_MASTER_MODE : Int))
    (hr : 0 < wrap32 p.rate) (ratio0 : Int)
    (hratio : hw_bclk_mclk_ratio s.mclk (wrap32 p.rate) (wrap32 p.frame_bits) =
      some ratio0)
    (h1024 : wrap32 (1024 * wrap32 p.rate) ≠ 0)
    (ha : hw_alen h p.format_width = some alen) :
    ∃ ratio ddsp dosr idac s1,
      hw_bclk_mclk_ratio s.mclk (wrap32 p.rate) (wrap32 p.frame_bits) = some ratio ∧
      hw_ddsp s.mclk (wrap32 p.rate) = some ddsp ∧
      hw_dosr s.mclk (wrap32 p.rate) = some dosr ∧
      hw_idac s.mclk ddsp (wrap32 p.rate) = some idac ∧
      pcm512x_hw_params h s p = some (0, s1) ∧
      s1.regmap.log = s.regmap.log ++ hw_log_ratios h ratio (wrap32 p.frame_bits) ++
          hw_log_rest h alen ddsp dosr (hw_fssp (wrap32 p.rate)) idac := by
  obtain ⟨ddsp, hd, hd2⟩ := @hw_ddsp_of_ne s.mclk _ h1024
  have h64 := wrap32_64_ne h1024
  have hdpos : 0 < ddsp := by omega
  have hdosr : hw_dosr s.mclk (wrap32 p.rate) =
      some (wrap32 (Int.tdiv s.mclk (wrap32 (64 * wrap32 p.rate)))) := by
    simp [hw_dosr, cdiv_of_ne h64 (wrap32_64_ne_neg_one _)]
  have hidac : hw_idac s.mclk ddsp (wrap32 p.rate) =
      some (wrap32 (Int.tdiv (wrap32 (Int.tdiv (wrap32 (4 * s.mclk)) ddsp)) (wrap32 p.rate))) := by
    simp [hw_idac, cdiv_of_pos hdpos, cdiv_of_pos hr]
  have key : ∃ s1, pcm512x_hw_params h s p = some (0, s1) ∧
      s1.regmap.log = s.regmap.log ++ hw_log_ratios h ratio0 (wrap32 p.frame_bits) ++
        hw_log_rest h alen ddsp (wrap32 (Int.tdiv s.mclk (wrap32 (64 * wrap32 p.rate))))
          (hw_fssp (wrap32 p.rate))
          (wrap32 (Int.tdiv (wrap32 (Int.tdiv (wrap32 (4 * s.mclk)) ddsp)) (wrap32 p.rate))) := by
    unfold pcm512x_hw_params
    rw [if_pos hm]
    simp only [hratio, hd, hdosr, hidac, ha, Option.bind_eq_bind, Option.some_bind, bind, pure]
    exact ⟨_, rfl, by simp [regmap_update_bits_log, hw_log_ratios, hw_log_rest]⟩
  obtain ⟨s1, k1, k2⟩ := key
  exact ⟨ratio0, ddsp, _, _, s1, hratio, hd, hdosr, hidac, k1, k2⟩

theorem selected_clock_range {mclk : Int} (hm : mclk = 22579200 ∨ mclk = 24576000) :
    0 ≤ wrap32 mclk ∧ wrap32 mclk ≤ 2147483647 := by
  rcases hm with rfl | rfl <;> decide

theorem advertised_rate_bounds {r : Int} (hr : r ∈ SNDRV_PCM_RATE_8000_192000) :
    8000 ≤ r ∧ r ≤ 192000 := by
  simp only [SNDRV_PCM_RATE_8000_192000, List.mem_cons, List.mem_singleton,
    List.mem_nil_iff, or_false] at hr
  omega

theorem advertised_rate_divisors {r : Int} (hr : r ∈ SNDRV_PCM_RATE_8000_192000) :
    0 < wrap32 r ∧ wrap32 (1024 * wrap32 r) ≠ 0 := by
  have hb := advertised_rate_bounds hr
  simp only [wrap32_eq]
  omega

/-- Claim C2: for every rate the codec DAI advertises, `iqaudio_hw_params` makes
exactly one clock request, for 22579200 Hz or 24576000 Hz, and for that master
clock the OSR divider `dosr = mclk/(64*rate)` of `pcm512x_hw_params` is exact,
`dosr * 64 * rate = mclk`, with `dosr ≥ 2`; in master mode with a supported
sample width `pcm512x_hw_params` then returns 0 having issued the update of
`PCM512x_OSR_CLKDIV` with `dosr - 1`. -/
theorem C2_osr_divider_exact (r : Int) (hr : r ∈ SNDRV_PCM_RATE_8000_192000) :
    ∃ mclk : Int, ∃ dosr : Int,
      (iqaudio_hw_params r).2 = [⟨0, mclk, SND_SOC_CLOCK_IN⟩] ∧
      (mclk = 22579200 ∨ mclk = 24576000) ∧
      hw_dosr (wrap32 mclk) (wrap32 r) = some dosr ∧
      dosr * 64 * r = mclk ∧ 2 ≤ dosr ∧
      ∀ (h : Pcm512xHeader) (s : pcm512x_priv) (p : snd_pcm_hw_params) (alen : Nat),
        s.mode = (h.PCM512x_MASTER_MODE : Int) → s.mclk = wrap32 mclk → p.rate = r →
        wrap32 p.frame_bits ≠ 0 → hw_alen h p.format_width = some alen →
        ∃ s1, pcm512x_hw_params h s p = some (0, s1) ∧
          (⟨h.PCM512x_OSR_CLKDIV, h.PCM512x_DOSR_MASK, toU32 (dosr - 1)⟩ : RegUpdate) ∈
            s1.regmap.log := by
  have hdiv := advertised_rate_divisors hr
  have core : ∃ mclk : Int, ∃ dosr : Int,
      (iqaudio_hw_params r).2 = [⟨0, mclk, SND_SOC_CLOCK_IN⟩] ∧
      (mclk = 22579200 ∨ mclk = 24576000) ∧
      hw_dosr (wrap32 mclk) (wrap32 r) = some dosr ∧
      dosr * 64 * r = mclk ∧ 2 ≤ dosr := by
    simp only [SNDRV_PCM_RATE_8000_192000, List.mem_cons, List.mem_singleton,
      List.mem_nil_iff, or_false] at hr
    rcases hr with rfl | rfl | rfl | rfl | rfl | rfl | rfl | rfl | rfl | rfl | rfl | rfl
    all_goals first
      | exact ⟨22579200, _, rfl, Or.inl rfl, rfl, by decide, by decide⟩
      | exact ⟨24576000, _, rfl, Or.inr rfl, rfl, by decide, by decide⟩
  obtain ⟨mclk, dosr, c1, c2, c3, c4, c5⟩ := core
  refine ⟨mclk, dosr, c1, c2, c3, c4, c5, ?_⟩
  intro h s p alen hm hclk hrate hfb ha
  subst hrate
  have hrange := selected_clock_range c2
  obtain ⟨ratio0, hratio⟩ := @hw_bclk_of_nonneg s.mclk (wrap32 p.rate)
    (wrap32 p.frame_bits) (by rw [hclk]; exact hrange.1) (by rw [hclk]; exact hrange.2)
    hdiv.1 hfb
  obtain ⟨ratio, ddsp, dosr1, idac, s1, -, -, e3, -, e5, e6⟩ :=
    hw_params_master_ok h s p alen hm hdiv.1 ratio0 hratio hdiv.2 ha
  rw [hclk, c3] at e3
  cases e3
  refine ⟨s1, e5, ?_⟩
  rw [e6]
  simp [hw_log_rest]

/-- Instance of C2 at 44100 Hz. -/
theorem C2_osr_divider_exact_witness :
    44100 ∈ SNDRV_PCM_RATE_8000_192000 ∧
    ∃ mclk : Int, ∃ dosr : Int,
      (iqaudio_hw_params 44100).2 = [⟨0, mclk, SND_SOC_CLOCK_IN⟩] ∧
      (mclk = 22579200 ∨ mclk = 24576000) ∧
      hw_dosr (wrap32 mclk) (wrap32 44100) = some dosr ∧
      dosr * 64 * 44100 = mclk ∧ 2 ≤ dosr :=
  ⟨by decide, by
    obtain ⟨mclk, dosr, c1, c2, c3, c4, c5, -⟩ := C2_osr_divider_exact 44100 (by decide)
    exact ⟨mclk, dosr, c1, c2, c3, c4, c5⟩⟩

/-! ## The DAI format of the link -/

/-- Claim C3: the format the machine driver declares for its link is accepted by
`pcm512x_set_dai_fmt`: the call returns 0, stores `PCM512x_MASTER_MODE` as the
mode, and issues exactly the three updates with `i2s_cfg = PCM512x_AFMT_I2S`,
`master = PCM512x_RBCK | PCM512x_RLRK` and
`bck_lrck_cfg = PCM512x_BCKO | PCM512x_LRKO`, without `PCM512x_BCKP`. -/
theorem C3_link_format_accepted (h : Pcm512xHeader) (s : pcm512x_priv) :
    (pcm512x_set_dai_fmt h s iqaudio_dai_fmt).1 = 0 ∧
    (pcm512x_set_dai_fmt h s iqaudio_dai_fmt).2.mode = (h.PCM512x_MASTER_MODE : Int) ∧
    (pcm512x_set_dai_fmt h s iqaudio_dai_fmt).2.regmap.log = s.regmap.log ++
      [⟨h.PCM512x_I2S_1, h.PCM512x_AFMT_MASK, h.PCM512x_AFMT_I2S⟩,
       ⟨h.PCM512x_MASTER_MODE, h.PCM512x_RBCK ||| h.PCM512x_RLRK,
         h.PCM512x_RBCK ||| h.PCM512x_RLRK⟩,
       ⟨h.PCM512x_BCLK_LRCLK_CFG, h.PCM512x_BCKO ||| h.PCM512x_LRKO ||| h.PCM512x_BCKP,
         h.PCM512x_BCKO ||| h.PCM512x_LRKO⟩] := by
  have e1 : fmt_master_switch h iqaudio_dai_fmt =
      some (h.PCM512x_RBCK ||| h.PCM512x_RLRK, h.PCM512x_BCKO ||| h.PCM512x_LRKO,
        (h.PCM512x_MASTER_MODE : Int)) := by
    have : iqaudio_dai_fmt &&& SND_SOC_DAIFMT_MASTER_MASK = SND_SOC_DAIFMT_CBM_CFM := by
      decide
    simp [fmt_master_switch, this]
  have e2 : fmt_format_switch h iqaudio_dai_fmt = some h.PCM512x_AFMT_I2S := by
    have : iqaudio_dai_fmt &&& SND_SOC_DAIFMT_FORMAT_MASK = SND_SOC_DAIFMT_I2S := by
      decide
    simp [fmt_format_switch, this]
  have e3 : ∀ c, fmt_inv_switch h iqaudio_dai_fmt c = some c := by
    intro c
    have : iqaudio_dai_fmt &&& SND_SOC_DAIFMT_INV_MASK = SND_SOC_DAIFMT_NB_IF := by
      decide
    simp [fmt_inv_switch, this]
  unfold pcm512x_set_dai_fmt
  simp only [e1, e2, e3]
  refine ⟨trivial, trivial, ?_⟩
  simp [regmap_update_bits_log]

/-! ## Bias level -/

/-- The three ways `pcm512x_set_bias_level` ends: no update for ON and PREPARE;
for STANDBY (value 0) and OFF (value `PCM512x_RQST`) one update of
`PCM512x_POWER` under the mask `PCM512x_RQST`, which fails or succeeds. -/
theorem set_bias_level_cases (h : Pcm512xHeader) (codec : snd_soc_codec)
    (level : snd_soc_bias_level) :
    ((level = .SND_SOC_BIAS_ON ∨ level = .SND_SOC_BIAS_PREPARE) ∧
      pcm512x_set_bias_level h codec level = (0, { codec with bias_level := level })) ∨
    (∃ v, ((level = .SND_SOC_BIAS_STANDBY ∧ v = 0) ∨
        (level = .SND_SOC_BIAS_OFF ∧ v = h.PCM512x_RQST)) ∧
      ((next_outcome codec.drvdata.regmap ≠ 0 ∧
        pcm512x_set_bias_level h codec level =
          (next_outcome codec.drvdata.regmap,
            { codec with drvdata := { codec.drvdata with
                regmap := (regmap_update_bits codec.drvdata.regmap h.PCM512x_POWER
                  h.PCM512x_RQST v).2 } })) ∨
       (next_outcome codec.drvdata.regmap = 0 ∧
        pcm512x_set_bias_level h codec level =
          (0, { drvdata := { codec.drvdata with
                  regmap := (regmap_update_bits codec.drvdata.regmap h.PCM512x_POWER
                    h.PCM512x_RQST v).2 },
                bias_level := level })))) := by
  cases level with
  | SND_SOC_BIAS_ON => exact Or.inl ⟨Or.inl rfl, rfl⟩
  | SND_SOC_BIAS_PREPARE => exact Or.inl ⟨Or.inr rfl, rfl⟩
  | SND_SOC_BIAS_STANDBY =>
    refine Or.inr ⟨0, Or.inl ⟨rfl, rfl⟩, ?_⟩
    unfold pcm512x_set_bias_level next_outcome
    simp only [regmap_update_bits_ret]
    by_cases hz : codec.drvdata.regmap.faults.headD 0 = 0
    · exact Or.inr ⟨hz, by rw [if_neg (not_not.mpr hz)]⟩
    · exact Or.inl ⟨hz, by rw [if_pos hz]⟩
  | SND_SOC_BIAS_OFF =>
    refine Or.inr ⟨h.PCM512x_RQST, Or.inr ⟨rfl, rfl⟩, ?_⟩
    unfold pcm512x_set_bias_level next_outcome
    simp only [regmap_update_bits_ret]
    by_cases hz : codec.drvdata.regmap.faults.headD 0 = 0
    · exact Or.inr ⟨hz, by rw [if_neg (not_not.mpr hz)]⟩
    · exact Or.inl ⟨hz, by rw [if_pos hz]⟩

/-- Claim C5: `pcm512x_set_bias_level` propagates the error of the update of the
POWER register atomically. For every level and prior state: when the function
updates POWER (levels STANDBY and OFF) and that access fails with a non-zero
code `e`, it returns `e` and the recorded bias level is unchanged; in every
other case it returns 0 and the recorded bias level is the requested one. -/
theorem C5_set_bias_level_error_atomic (h : Pcm512xHeader) (codec : snd_soc_codec)
    (level : snd_soc_bias_level) :
    (∀ e : Int, e ≠ 0 →
      (level = .SND_SOC_BIAS_STANDBY ∨ level = .SND_SOC_BIAS_OFF) →
      next_outcome codec.drvdata.regmap = e →
      (pcm512x_set_bias_level h codec level).1 = e ∧
      (pcm512x_set_bias_level h codec level).2.bias_level = codec.bias_level) ∧
    (¬ ((level = .SND_SOC_BIAS_STANDBY ∨ level = .SND_SOC_BIAS_OFF) ∧
        next_outcome codec.drvdata.regmap ≠ 0) →
      (pcm512x_set_bias_level h codec level).1 = 0 ∧
      (pcm512x_set_bias_level h codec level).2.bias_level = level) := by
  rcases set_bias_level_cases h codec level with ⟨hl, heq⟩ | ⟨v, hv, ⟨hne, heq⟩ | ⟨hz, heq⟩⟩
  · refine ⟨?_, fun _ => by rw [heq]; exact ⟨rfl, rfl⟩⟩
    intro e _ hlev _
    rcases hl with rfl | rfl <;> rcases hlev with hc | hc <;> cases hc
  · refine ⟨?_, ?_⟩
    · intro e _ _ hout
      rw [heq]
      exact ⟨hout, rfl⟩
    · intro hn
      exfalso
      apply hn
      refine ⟨?_, hne⟩
      rcases hv with ⟨rfl, -⟩ | ⟨rfl, -⟩
      · exact Or.inl rfl
      · exact Or.inr rfl
  · refine ⟨?_, fun _ => by rw [heq]; exact ⟨rfl, rfl⟩⟩
    intro e he _ hout
    exact absurd (hout.symm.trans hz) he

/-- Instances of C5: a failing request for standby (code -5) and a successful one. -/
theorem C5_set_bias_level_error_atomic_witness :
    ((pcm512x_set_bias_level datasheetHeader
        ⟨sampleState [-5] 0 0 0, .SND_SOC_BIAS_STANDBY⟩ .SND_SOC_BIAS_OFF).1 = -5 ∧
     (pcm512x_set_bias_level datasheetHeader
        ⟨sampleState [-5] 0 0 0, .SND_SOC_BIAS_STANDBY⟩ .SND_SOC_BIAS_OFF).2.bias_level =
        .SND_SOC_BIAS_STANDBY) ∧
    ((pcm512x_set_bias_level datasheetHeader
        ⟨sampleState [] 0 0 0, .SND_SOC_BIAS_STANDBY⟩ .SND_SOC_BIAS_OFF).1 = 0 ∧
     (pcm512x_set_bias_level datasheetHeader
        ⟨sampleState [] 0 0 0, .SND_SOC_BIAS_STANDBY⟩ .SND_SOC_BIAS_OFF).2.bias_level =
        .SND_SOC_BIAS_OFF) :=
  ⟨⟨((C5_set_bias_level_error_atomic datasheetHeader
        ⟨sampleState [-5] 0 0 0, .SND_SOC_BIAS_STANDBY⟩ .SND_SOC_BIAS_OFF).1 (-5)
        (by decide) (Or.inr rfl) (by decide)).1,
     ((C5_set_bias_level_error_atomic datasheetHeader
        ⟨sampleState [-5] 0 0 0, .SND_SOC_BIAS_STANDBY⟩ .SND_SOC_BIAS_OFF).1 (-5)
        (by decide) (Or.inr rfl) (by decide)).2⟩,
   (C5_set_bias_level_error_atomic datasheetHeader
        ⟨sampleState [] 0 0 0, .SND_SOC_BIAS_STANDBY⟩ .SND_SOC_BIAS_OFF).2
        (by decide)⟩

theorem update_bits_outside_mask (orig mask val i : Nat) (hi : mask.testBit i = false) :
    (and_not orig mask ||| (val &&& mask)).testBit i = orig.testBit i := by
  rw [Nat.testBit_or, Nat.testBit_and, testBit_and_not, hi]
  simp

theorem update_bits_inside_mask (orig mask val i : Nat) (hi : mask.testBit i = true) :
    (and_not orig mask ||| (val &&& mask)).testBit i = val.testBit i := by
  rw [Nat.testBit_or, Nat.testBit_and, testBit_and_not, hi]
  simp

/-- Claim C6: with `regmap_update_bits(reg, mask, val)` setting the register to
`(reg & ~mask) | (val & mask)`, a successful `pcm512x_set_bias_level` changes
only the `PCM512x_RQST` bit of the POWER register: STANDBY clears it, OFF sets
it, ON and PREPARE issue no update and leave the driver data as it is; every
other bit of POWER and every other register is unchanged. -/
theorem C6_set_bias_level_frame (h : Pcm512xHeader) (codec : snd_soc_codec)
    (level : snd_soc_bias_level)
    (hok : (pcm512x_set_bias_level h codec level).1 = 0) :
    (level = .SND_SOC_BIAS_STANDBY → ∀ i, h.PCM512x_RQST.testBit i = true →
      ((pcm512x_set_bias_level h codec level).2.drvdata.regmap.regs
        h.PCM512x_POWER).testBit i = false) ∧
    (level = .SND_SOC_BIAS_OFF → ∀ i, h.PCM512x_RQST.testBit i = true →
      ((pcm512x_set_bias_level h codec level).2.drvdata.regmap.regs
        h.PCM512x_POWER).testBit i = true) ∧
    (level = .SND_SOC_BIAS_ON ∨ level = .SND_SOC_BIAS_PREPARE →
      (pcm512x_set_bias_level h codec level).2.drvdata = codec.drvdata) ∧
    (∀ i, h.PCM512x_RQST.testBit i = false →
      ((pcm512x_set_bias_level h codec level).2.drvdata.regmap.regs
        h.PCM512x_POWER).testBit i =
      (codec.drvdata.regmap.regs h.PCM512x_POWER).testBit i) ∧
    (∀ r, r ≠ h.PCM512x_POWER →
      (pcm512x_set_bias_level h codec level).2.drvdata.regmap.regs r =
        codec.drvdata.regmap.regs r) := by
  rcases set_bias_level_cases h codec level with ⟨hl, heq⟩ | ⟨v, hv, ⟨hne, heq⟩ | ⟨hz, heq⟩⟩
  · rw [heq]
    refine ⟨?_, ?_, fun _ => rfl, fun _ _ => rfl, fun _ _ => rfl⟩
    · intro hc; rcases hl with rfl | rfl <;> cases hc
    · intro hc; rcases hl with rfl | rfl <;> cases hc
  · rw [heq] at hok
    exact absurd hok hne
  · rw [heq]
    have hreg : ∀ r, (regmap_update_bits codec.drvdata.regmap h.PCM512x_POWER
        h.PCM512x_RQST v).2.regs r =
        if r = h.PCM512x_POWER then
          and_not (codec.drvdata.regmap.regs h.PCM512x_POWER) h.PCM512x_RQST |||
            (v &&& h.PCM512x_RQST)
        else codec.drvdata.regmap.regs r :=
      regmap_update_bits_regs_ok _ _ _ _ hz
    refine ⟨?_, ?_, ?_, ?_, ?_⟩
    · intro hc i hi
      rcases hv with ⟨-, rfl⟩ | ⟨hoff, -⟩
      · show ((regmap_update_bits codec.drvdata.regmap h.PCM512x_POWER
          h.PCM512x_RQST 0).2.regs h.PCM512x_POWER).testBit i = false
        rw [hreg, if_pos rfl, update_bits_inside_mask _ _ _ _ hi]
        simp
      · rw [hoff] at hc; cases hc
    · intro hc i hi
      rcases hv with ⟨hst, -⟩ | ⟨-, rfl⟩
      · rw [hst] at hc; cases hc
      · show ((regmap_update_bits codec.drvdata.regmap h.PCM512x_POWER
          h.PCM512x_RQST h.PCM512x_RQST).2.regs h.PCM512x_POWER).testBit i = true
        rw [hreg, if_pos rfl, update_bits_inside_mask _ _ _ _ hi]
        exact hi
    · intro hc
      rcases hv with ⟨rfl, -⟩ | ⟨rfl, -⟩ <;> rcases hc with hc | hc <;> cases hc
    · intro i hi
      show ((regmap_update_bits codec.drvdata.regmap h.PCM512x_POWER
          h.PCM512x_RQST v).2.regs h.PCM512x_POWER).testBit i = _
      rw [hreg, if_pos rfl, update_bits_outside_mask _ _ _ _ hi]
    · intro r hr
      show (regmap_update_bits codec.drvdata.regmap h.PCM512x_POWER
          h.PCM512x_RQST v).2.regs r = _
      rw [hreg, if_neg hr]

/-- Instance of C6: from POWER = 0x01 a successful request for OFF sets bit 4
and keeps bit 0; another register keeps its value. -/
theorem C6_set_bias_level_frame_witness :
    ((pcm512x_set_bias_level datasheetHeader
        ⟨⟨⟨fun _ => 1, [], []⟩, 0, 0, 0, 0⟩, .SND_SOC_BIAS_STANDBY⟩
        .SND_SOC_BIAS_OFF).2.drvdata.regmap.regs datasheetHeader.PCM512x_POWER).testBit 4
      = true ∧
    ((pcm512x_set_bias_level datasheetHeader
        ⟨⟨⟨fun _ => 1, [], []⟩, 0, 0, 0, 0⟩, .SND_SOC_BIAS_STANDBY⟩
        .SND_SOC_BIAS_OFF).2.drvdata.regmap.regs datasheetHeader.PCM512x_POWER).testBit 0
      = true ∧
    (pcm512x_set_bias_level datasheetHeader
        ⟨⟨⟨fun _ => 1, [], []⟩, 0, 0, 0, 0⟩, .SND_SOC_BIAS_STANDBY⟩
        .SND_SOC_BIAS_OFF).2.drvdata.regmap.regs 7 = 1 :=
  ⟨(C6_set_bias_level_frame datasheetHeader
      ⟨⟨⟨fun _ => 1, [], []⟩, 0, 0, 0, 0⟩, .SND_SOC_BIAS_STANDBY⟩
      .SND_SOC_BIAS_OFF (by decide)).2.1 rfl 4 (by decide),
   (C6_set_bias_level_frame datasheetHeader
      ⟨⟨⟨fun _ => 1, [], []⟩, 0, 0, 0, 0⟩, .SND_SOC_BIAS_STANDBY⟩
      .SND_SOC_BIAS_OFF (by decide)).2.2.2.1 0 (by decide),
   (C6_set_bias_level_frame datasheetHeader
      ⟨⟨⟨fun _ => 1, [], []⟩, 0, 0, 0, 0⟩, .SND_SOC_BIAS_STANDBY⟩
      .SND_SOC_BIAS_OFF (by decide)).2.2.2.2 7 (by decide)⟩

/-! ## Register-access errors in the clock and format functions -/

/-- Claim C7 fails as stated: with the first register update of
`pcm512x_set_sysclk` (that of `PCM512x_PLL_COEFF_0`) failing with code -5, the
function still returns 0. -/
theorem C7_sysclk_error_not_propagated :
    (regmap_update_bits (sampleState [-5] 1 0 0).regmap
      datasheetHeader.PCM512x_PLL_COEFF_0 datasheetHeader.PCM512x_PLL_PPDV_MASK
      (toU32 (pll_P (wrap32 (sampleState [-5] 1 0 0).sclk_rate) - 1))).1 = -5 ∧
    (pcm512x_set_sysclk datasheetHeader (sampleState [-5] 1 0 0) 0 22579200
      SND_SOC_CLOCK_IN).map Prod.fst = some 0 := by
  decide

theorem hw_params_ret_cases (h : Pcm512xHeader) (s : pcm512x_priv) (p : snd_pcm_hw_params) :
    (pcm512x_hw_params h s p).map Prod.fst =
      if s.mode = (h.PCM512x_MASTER_MODE : Int) then
        (hw_bclk_mclk_ratio s.mclk (wrap32 p.rate) (wrap32 p.frame_bits)).bind fun _ =>
          match hw_alen h p.format_width with
          | none => some (-EINVAL)
          | some _ =>
            (hw_ddsp s.mclk (wrap32 p.rate)).bind fun ddsp =>
              (hw_dosr s.mclk (wrap32 p.rate)).bind fun _ =>
                (hw_idac s.mclk ddsp (wrap32 p.rate)).bind fun _ => some 0
      else some 0 := by
  unfold pcm512x_hw_params
  split_ifs with hm
  · cases h1 : hw_bclk_mclk_ratio s.mclk (wrap32 p.rate) (wrap32 p.frame_bits) with
    | none => simp [h1]
    | some ratio =>
      cases h2 : hw_alen h p.format_width with
      | none => simp [h1, h2]
      | some alen =>
        cases hd : hw_ddsp s.mclk (wrap32 p.rate) with
        | none => simp [h1, h2, hd]
        | some ddsp =>
          cases ho : hw_dosr s.mclk (wrap32 p.rate) with
          | none => simp [h1, h2, hd, ho]
          | some dosr =>
            cases hi : hw_idac s.mclk ddsp (wrap32 p.rate) with
            | none => simp [h1, h2, hd, ho, hi]
            | some idac => simp [h1, h2, hd, ho, hi]
  · rfl

/-- The return code of `pcm512x_hw_params`, when it returns, is 0 or `-EINVAL`. -/
theorem hw_params_ret_range (h : Pcm512xHeader) (s : pcm512x_priv) (p : snd_pcm_hw_params) :
    (pcm512x_hw_params h s p).map Prod.fst = some 0 ∨
      (pcm512x_hw_params h s p).map Prod.fst = some (-EINVAL) ∨
      pcm512x_hw_params h s p = none := by
  cases hres : pcm512x_hw_params h s p with
  | none => exact Or.inr (Or.inr rfl)
  | some r =>
    have hc := hw_params_ret_cases h s p
    rw [hres] at hc
    split_ifs at hc with hm
    · cases h1 : hw_bclk_mclk_ratio s.mclk (wrap32 p.rate) (wrap32 p.frame_bits) with
      | none => simp [h1] at hc
      | some ratio =>
        cases h2 : hw_alen h p.format_width with
        | none => exact Or.inr (Or.inl (by simpa [h1, h2] using hc))
        | some alen =>
          cases hd : hw_ddsp s.mclk (wrap32 p.rate) with
          | none => simp [h1, h2, hd] at hc
          | some ddsp =>
            cases ho : hw_dosr s.mclk (wrap32 p.rate) with
            | none => simp [h1, h2, hd, ho] at hc
            | some dosr =>
              cases hi : hw_idac s.mclk ddsp (wrap32 p.rate) with
              | none => simp [h1, h2, hd, ho, hi] at hc
              | some idac => exact Or.inl (by simpa [h1, h2, hd, ho, hi] using hc)
    · exact Or.inl hc

theorem set_sysclk_ret_cases (h : Pcm512xHeader) (s : pcm512x_priv)
    (clk_id : Int) (freq : Int) (dir : Int) :
    (pcm512x_set_sysclk h s clk_id freq dir).map Prod.fst =
      if s.ctype = (h.PCM512x_NON_AUDIO_RATE : Int) then
        (pll_J (pll_P (wrap32 s.sclk_rate)) (wrap32 (4 * freq)) (wrap32 s.sclk_rate)).bind
          fun _ =>
            (pll_D (pll_P (wrap32 s.sclk_rate)) (wrap32 (4 * freq))
              (wrap32 s.sclk_rate)).bind fun _ => some 0
      else some 0 := by
  unfold pcm512x_set_sysclk
  dsimp only
  split_ifs with hc
  · cases hj : pll_J (pll_P (wrap32 s.sclk_rate)) (wrap32 (4 * freq)) (wrap32 s.sclk_rate) with
    | none => simp [hj, bind]
    | some J =>
      cases hd : pll_D (pll_P (wrap32 s.sclk_rate)) (wrap32 (4 * freq))
          (wrap32 s.sclk_rate) with
      | none => simp [hj, hd, bind]
      | some D => simp [hj, hd, bind]
  · rfl

theorem set_dai_fmt_ret_cases (h : Pcm512xHeader) (s : pcm512x_priv) (fmt : Nat) :
    (pcm512x_set_dai_fmt h s fmt).1 =
      match fmt_master_switch h fmt with
      | none => -EINVAL
      | some (_, bck_lrck_cfg, _) =>
        match fmt_format_switch h fmt with
        | none => -EINVAL
        | some _ =>
          match fmt_inv_switch h fmt bck_lrck_cfg with
          | none => -EINVAL
          | some _ => 0 := by
  unfold pcm512x_set_dai_fmt
  cases h1 : fmt_master_switch h fmt with
  | none => simp [h1]
  | some t =>
    obtain ⟨master, cfg, mode⟩ := t
    cases h2 : fmt_format_switch h fmt with
    | none => simp [h1, h2]
    | some i2s =>
      cases h3 : fmt_inv_switch h fmt cfg with
      | none => simp [h1, h2, h3]
      | some c => simp [h1, h2, h3]

/-- Claim C7, amended: `pcm512x_hw_params`, `pcm512x_set_sysclk` and
`pcm512x_set_dai_fmt` discard the result of every register update. Whatever the
outcomes `f` of the coming register accesses, each function returns what it
returns when no access fails; `pcm512x_set_sysclk` returns 0 whenever it
returns, `pcm512x_hw_params` returns 0 or `-EINVAL` whenever it returns, and
`pcm512x_set_dai_fmt` returns 0 or `-EINVAL`. -/
theorem C7_register_errors_discarded (h : Pcm512xHeader) (s : pcm512x_priv)
    (f : List Int) :
    (∀ p, (pcm512x_hw_params h { s with regmap := { s.regmap with faults := f } } p).map
        Prod.fst = (pcm512x_hw_params h s p).map Prod.fst ∧
      ((pcm512x_hw_params h s p).map Prod.fst = some 0 ∨
        (pcm512x_hw_params h s p).map Prod.fst = some (-EINVAL) ∨
        pcm512x_hw_params h s p = none)) ∧
    (∀ clk_id freq dir,
      (pcm512x_set_sysclk h { s with regmap := { s.regmap with faults := f } }
        clk_id freq dir).map Prod.fst =
        (pcm512x_set_sysclk h s clk_id freq dir).map Prod.fst ∧
      ((pcm512x_set_sysclk h s clk_id freq dir).map Prod.fst = some 0 ∨
        pcm512x_set_sysclk h s clk_id freq dir = none)) ∧
    (∀ fmt,
      (pcm512x_set_dai_fmt h { s with regmap := { s.regmap with faults := f } } fmt).1 =
        (pcm512x_set_dai_fmt h s fmt).1 ∧
      ((pcm512x_set_dai_fmt h s fmt).1 = 0 ∨ (pcm512x_set_dai_fmt h s fmt).1 = -EINVAL)) := by
  refine ⟨fun p => ⟨?_, hw_params_ret_range h s p⟩, fun clk_id freq dir => ⟨?_, ?_⟩,
    fun fmt => ⟨?_, ?_⟩⟩
  · rw [hw_params_ret_cases, hw_params_ret_cases]
  · rw [set_sysclk_ret_cases, set_sysclk_ret_cases]
  · cases hres : pcm512x_set_sysclk h s clk_id freq dir with
    | none => exact Or.inr rfl
    | some r =>
      left
      have hc := set_sysclk_ret_cases h s clk_id freq dir
      rw [hres] at hc
      split_ifs at hc with hct
      · cases hj : pll_J (pll_P (wrap32 s.sclk_rate)) (wrap32 (4 * freq))
            (wrap32 s.sclk_rate) with
        | none => simp [hj] at hc
        | some J =>
          cases hd : pll_D (pll_P (wrap32 s.sclk_rate)) (wrap32 (4 * freq))
              (wrap32 s.sclk_rate) with
          | none => simp [hj, hd] at hc
          | some D => simpa [hj, hd] using hc
      · exact hc
  · rw [set_dai_fmt_ret_cases, set_dai_fmt_ret_cases]
  · rw [set_dai_fmt_ret_cases]
    cases h1 : fmt_master_switch h fmt with
    | none => simp [h1]
    | some t =>
      obtain ⟨master, cfg, mode⟩ := t
      cases h2 : fmt_format_switch h fmt with
      | none => simp [h1, h2]
      | some i2s =>
        cases h3 : fmt_inv_switch h fmt cfg with
        | none => simp [h1, h2, h3]
        | some c => simp [h1, h2, h3]

/-! ## The sample-width check of `pcm512x_hw_params` -/

theorem hw_alen_eq_none (h : Pcm512xHeader) (w : Int) :
    hw_alen h w = none ↔ w ≠ 16 ∧ w ≠ 20 ∧ w ≠ 24 ∧ w ≠ 32 := by
  unfold hw_alen
  split_ifs <;> simp_all

theorem hw_alen_eq_some (h : Pcm512xHeader) (w : Int) (alen : Nat) :
    hw_alen h w = some alen ↔
      (w = 16 ∧ alen = h.PCM512x_ALEN_16) ∨ (w = 20 ∧ alen = h.PCM512x_ALEN_20) ∨
      (w = 24 ∧ alen = h.PCM512x_ALEN_24) ∨ (w = 32 ∧ alen = h.PCM512x_ALEN_32) := by
  unfold hw_alen
  split_ifs with h16 h20 h24 h32
  · subst h16; simp [eq_comm]
  · subst h20; simp [eq_comm]
  · subst h24; simp [eq_comm]
  · subst h32; simp [eq_comm]
  · simp [h16, h20, h24, h32]

theorem neg_EINVAL_ne_zero : -EINVAL ≠ 0 := by decide

theorem hw_rate_pos_of_bounds {rate : Int} (hr : 0 < rate)
    (hr2 : 1024 * rate ≤ 2147483647) : 0 < wrap32 rate := by
  simp only [wrap32_eq]
  omega

theorem hw_frame_bits_pos_of_bounds {frame_bits : Int} (hf : 0 < frame_bits)
    (hf2 : frame_bits ≤ 2147483647) : 0 < wrap32 frame_bits := by
  simp only [wrap32_eq]
  omega

theorem hw_divisors_of_bounds {rate frame_bits : Int} (hr : 0 < rate)
    (hr2 : 1024 * rate ≤ 2147483647) (hf : 0 < frame_bits)
    (hf2 : frame_bits ≤ 4294967295) :
    wrap32 rate ≠ 0 ∧ wrap32 frame_bits ≠ 0 ∧ wrap32 (1024 * wrap32 rate) ≠ 0 := by
  simp only [wrap32_eq]
  omega

/-- Claim C4 fails as stated: in master mode, with the supported width 16, frame
bits 32 and the positive rate 4194304, the product `1024*rate` wraps to 0 in
32 bits and `pcm512x_hw_params` divides by zero: it returns neither 0 nor
`-EINVAL`. -/
theorem C4_rate_overflow_no_return :
    0 < (⟨4194304, 32, 16⟩ : snd_pcm_hw_params).rate ∧
    0 < (⟨4194304, 32, 16⟩ : snd_pcm_hw_params).frame_bits ∧
    (sampleState [] 0 0x10c 24576000).mode = (datasheetHeader.PCM512x_MASTER_MODE : Int) ∧
    wrap32 (1024 * wrap32 4194304) = 0 ∧
    (pcm512x_hw_params datasheetHeader (sampleState [] 0 0x10c 24576000)
      ⟨4194304, 32, 16⟩).map Prod.fst = none := by
  decide

/-- Claim C4, amended: for every hardware-parameter set with rate > 0, `1024*rate`
within the signed 32-bit range and frame bits > 0 as the `int` the code holds
them in (at most 2^31 - 1), whatever the stored master clock,
`pcm512x_hw_params` returns; it returns `-EINVAL` exactly when the codec is in
`PCM512x_MASTER_MODE` and the sample width is none of 16, 20, 24, 32, and 0 in
every other case. When it accepts the width `w` in master mode, the updates it
has issued are the two ratio updates followed by the six others, the first of
which carries `PCM512x_ALEN_w`. Each declared format (S16_LE, S24_LE, S32_LE)
is accepted. -/
theorem C4_hw_params_width_check (h : Pcm512xHeader) (s : pcm512x_priv)
    (p : snd_pcm_hw_params) (hr : 0 < p.rate) (hr2 : 1024 * p.rate ≤ 2147483647)
    (hf : 0 < p.frame_bits) (hf2 : p.frame_bits ≤ 2147483647) :
    ∃ ret s1, pcm512x_hw_params h s p = some (ret, s1) ∧
      (ret = -EINVAL ↔ (s.mode = (h.PCM512x_MASTER_MODE : Int) ∧
        p.format_width ≠ 16 ∧ p.format_width ≠ 20 ∧ p.format_width ≠ 24 ∧
        p.format_width ≠ 32)) ∧
      (ret ≠ -EINVAL → ret = 0) ∧
      (s.mode = (h.PCM512x_MASTER_MODE : Int) → ∀ alen,
        ((p.format_width = 16 ∧ alen = h.PCM512x_ALEN_16) ∨
         (p.format_width = 20 ∧ alen = h.PCM512x_ALEN_20) ∨
         (p.format_width = 24 ∧ alen = h.PCM512x_ALEN_24) ∨
         (p.format_width = 32 ∧ alen = h.PCM512x_ALEN_32)) →
        ∃ ratio ddsp dosr idac,
          s1.regmap.log = s.regmap.log ++ hw_log_ratios h ratio (wrap32 p.frame_bits) ++
            hw_log_rest h alen ddsp dosr (hw_fssp (wrap32 p.rate)) idac) ∧
      (∀ f : DaiFormat, p.format_width = snd_pcm_format_width f → ret = 0) := by
  obtain ⟨-, -, d3⟩ := hw_divisors_of_bounds hr hr2 hf (by omega)
  have hrp := hw_rate_pos_of_bounds hr hr2
  have hfp := hw_frame_bits_pos_of_bounds hf hf2
  obtain ⟨ratio0, hratio⟩ := @hw_bclk_of_pos s.mclk _ _ hrp hfp
  by_cases hm : s.mode = (h.PCM512x_MASTER_MODE : Int)
  · cases ha : hw_alen h p.format_width with
    | none =>
      obtain ⟨ratio, s1, -, e1, -⟩ := hw_params_master_einval h s p hm ratio0 hratio ha
      have hw := (hw_alen_eq_none h p.format_width).1 ha
      refine ⟨-EINVAL, s1, e1, ⟨fun _ => ⟨hm, hw⟩, fun _ => rfl⟩, fun hne => absurd rfl hne,
        ?_, ?_⟩
      · intro _ alen hal
        have := (hw_alen_eq_some h p.format_width alen).2 hal
        rw [ha] at this
        cases this
      · intro f hfw
        exfalso
        cases f <;> simp [snd_pcm_format_width] at hfw <;> omega
    | some alen =>
      obtain ⟨ratio, ddsp, dosr, idac, s1, -, -, -, -, e1, e2⟩ :=
        hw_params_master_ok h s p alen hm hrp ratio0 hratio d3 ha
      refine ⟨0, s1, e1, ⟨fun h0 => absurd h0.symm neg_EINVAL_ne_zero, ?_⟩, fun _ => rfl,
        ?_, fun _ _ => rfl⟩
      · rintro ⟨-, hw⟩
        have := (hw_alen_eq_none h p.format_width).2 hw
        rw [ha] at this
        cases this
      · intro _ alen1 hal
        have := (hw_alen_eq_some h p.format_width alen1).2 hal
        rw [ha] at this
        cases this
        exact ⟨ratio, ddsp, dosr, idac, e2⟩
  · have e1 : pcm512x_hw_params h s p = some (0, s) := by
      unfold pcm512x_hw_params
      rw [if_neg hm]
    refine ⟨0, s, e1, ⟨fun h0 => absurd h0.symm neg_EINVAL_ne_zero, fun hc => absurd hc.1 hm⟩,
      fun _ => rfl, fun hc => absurd hc hm, fun _ _ => rfl⟩

/-- Instance of C4: in master mode the declared format S32_LE is accepted at
48000 Hz with 64 frame bits. -/
theorem C4_hw_params_width_check_witness :
    ∃ s1, pcm512x_hw_params datasheetHeader (sampleState [] 0 0x10c 24576000)
      ⟨48000, 64, snd_pcm_format_width .S32_LE⟩ = some (0, s1) := by
  obtain ⟨ret, s1, e1, -, -, -, e5⟩ :=
    C4_hw_params_width_check datasheetHeader (sampleState [] 0 0x10c 24576000)
      ⟨48000, 64, snd_pcm_format_width .S32_LE⟩ (by decide) (by decide) (by decide)
      (by decide)
  have h0 : ret = 0 := e5 .S32_LE rfl
  rw [h0] at e1
  exact ⟨s1, e1⟩

/-! ## The PLL coefficients of `pcm512x_set_sysclk` -/

/-- With the clock type `PCM512x_NON_AUDIO_RATE`, when the two divisions of the
multiplication factor have the values `J` and `D`, `pcm512x_set_sysclk` stores
the frequency, issues the five coefficient updates and returns 0. -/
theorem set_sysclk_non_audio_of (h : Pcm512xHeader) (s : pcm512x_priv)
    (clk_id : Int) (freq : Int) (dir : Int)
    (hc : s.ctype = (h.PCM512x_NON_AUDIO_RATE : Int)) (J D : Int)
    (hJ : pll_J (pll_P (wrap32 s.sclk_rate)) (wrap32 (4 * freq)) (wrap32 s.sclk_rate) =
      some J)
    (hD : pll_D (pll_P (wrap32 s.sclk_rate)) (wrap32 (4 * freq)) (wrap32 s.sclk_rate) =
      some D) :
    ∃ s1, pcm512x_set_sysclk h s clk_id freq dir = some (0, s1) ∧
      s1.mclk = wrap32 freq ∧ s1.mode = s.mode ∧
      s1.regmap.log = s.regmap.log ++ sysclk_log h (pll_P (wrap32 s.sclk_rate)) J D := by
  unfold pcm512x_set_sysclk
  dsimp only
  rw [if_pos hc]
  simp only [hJ, hD, Option.bind_eq_bind, Option.some_bind, bind, pure]
  refine ⟨_, rfl, rfl, rfl, ?_⟩
  simp [regmap_update_bits_log, sysclk_log, toU32]

/-- With the clock type `PCM512x_NON_AUDIO_RATE` and a positive reference clock,
`pcm512x_set_sysclk` stores the frequency, issues the five coefficient updates
and returns 0. -/
theorem set_sysclk_non_audio (h : Pcm512xHeader) (s : pcm512x_priv)
    (clk_id : Int) (freq : Int) (dir : Int)
    (hc : s.ctype = (h.PCM512x_NON_AUDIO_RATE : Int)) (href : 0 < wrap32 s.sclk_rate) :
    ∃ J D s1,
      pll_J (pll_P (wrap32 s.sclk_rate)) (wrap32 (4 * freq)) (wrap32 s.sclk_rate) = some J ∧
      pll_D (pll_P (wrap32 s.sclk_rate)) (wrap32 (4 * freq)) (wrap32 s.sclk_rate) = some D ∧
      pcm512x_set_sysclk h s clk_id freq dir = some (0, s1) ∧
      s1.mclk = wrap32 freq ∧ s1.mode = s.mode ∧
      s1.regmap.log = s.regmap.log ++ sysclk_log h (pll_P (wrap32 s.sclk_rate)) J D := by
  have hJ : pll_J (pll_P (wrap32 s.sclk_rate)) (wrap32 (4 * freq)) (wrap32 s.sclk_rate) =
      some (wrap32 (Int.tdiv (wrap32 (pll_P (wrap32 s.sclk_rate) * wrap32 (4 * freq)))
        (wrap32 s.sclk_rate))) := by
    simp [pll_J, cdiv_of_pos href]
  have hD : pll_D (pll_P (wrap32 s.sclk_rate)) (wrap32 (4 * freq)) (wrap32 s.sclk_rate) =
      some (wrap32 (Int.tdiv (10000 * wrap32 (Int.tmod
        (wrap32 (pll_P (wrap32 s.sclk_rate) * wrap32 (4 * freq))) (wrap32 s.sclk_rate)))
        (wrap32 s.sclk_rate))) := by
    simp [pll_D, cmod_of_pos href]
  obtain ⟨s1, k1, k2, k3, k4⟩ :=
    set_sysclk_non_audio_of h s clk_id freq dir hc _ _ hJ hD
  exact ⟨_, _, s1, hJ, hD, k1, k2, k3, k4⟩

theorem pll_P_of_pos {refclk : Int} (h0 : 0 < refclk) (h1 : refclk ≤ 2147483647) :
    (refclk ≤ 20000000 → pll_P refclk = 1) ∧
    (20000000 < refclk → pll_P refclk = refclk / 20000000 + 1) ∧
    1 ≤ pll_P refclk ∧ pll_P refclk ≤ 108 ∧ refclk ≤ 20000000 * pll_P refclk := by
  unfold pll_P
  split_ifs with hgt
  · rw [Int.tdiv_eq_ediv (by omega) (by omega)]
    simp only [wrap32_eq]
    omega
  · omega

/-- Claim C9: the pre-divider `P` chosen by `pcm512x_set_sysclk` obeys
`refclk/P <= 20 MHz`. For every reference clock `refclk > 0`: `P = 1` when
`refclk <= 20000000` and `P = refclk/20000000 + 1` otherwise, so `P >= 1`,
`refclk <= 20000000 * P` and `refclk / P <= 20000000`; with the clock type
`PCM512x_NON_AUDIO_RATE` the function returns 0 having issued the update of
`PCM512x_PLL_COEFF_0` with `P - 1`. -/
theorem C9_pll_predivider (sclk_rate : Int) (href : 0 < wrap32 sclk_rate) :
    (wrap32 sclk_rate ≤ 20000000 → pll_P (wrap32 sclk_rate) = 1) ∧
    (20000000 < wrap32 sclk_rate →
      pll_P (wrap32 sclk_rate) = wrap32 sclk_rate / 20000000 + 1) ∧
    1 ≤ pll_P (wrap32 sclk_rate) ∧
    wrap32 sclk_rate ≤ 20000000 * pll_P (wrap32 sclk_rate) ∧
    wrap32 sclk_rate / pll_P (wrap32 sclk_rate) ≤ 20000000 ∧
    ∀ (h : Pcm512xHeader) (s : pcm512x_priv) (clk_id : Int) (freq : Int) (dir : Int),
      s.ctype = (h.PCM512x_NON_AUDIO_RATE : Int) → s.sclk_rate = sclk_rate →
      ∃ s1, pcm512x_set_sysclk h s clk_id freq dir = some (0, s1) ∧
        (⟨h.PCM512x_PLL_COEFF_0, h.PCM512x_PLL_PPDV_MASK,
          toU32 (pll_P (wrap32 sclk_rate) - 1)⟩ : RegUpdate) ∈ s1.regmap.log := by
  obtain ⟨p1, p2, p3, -, p5⟩ := pll_P_of_pos href (wrap32_range _).2
  refine ⟨p1, p2, p3, p5, ?_, ?_⟩
  · exact Int.ediv_le_of_le_mul (by omega) p5
  · intro h s clk_id freq dir hc hs
    subst hs
    obtain ⟨J, D, s1, -, -, e1, -, -, e2⟩ :=
      set_sysclk_non_audio h s clk_id freq dir hc (by omega)
    refine ⟨s1, e1, ?_⟩
    rw [e2]
    simp [sysclk_log]

/-- Instance of C9 at the 24 MHz reference clock: `P = 2`. -/
theorem C9_pll_predivider_witness :
    0 < wrap32 24000000 ∧ pll_P (wrap32 24000000) = 2 ∧
    wrap32 24000000 / pll_P (wrap32 24000000) ≤ 20000000 :=
  ⟨by decide,
   ((C9_pll_predivider 24000000 (by decide)).2.1 (by decide)).trans (by decide),
   (C9_pll_predivider 24000000 (by decide)).2.2.2.2.1⟩

theorem pll_coefficients_math {X refclk : Int} (hX : 0 ≤ X) (hX2 : X ≤ 2147483647)
    (h0 : 0 < refclk) (h1 : refclk ≤ 2147483647) :
    wrap32 (Int.tdiv (wrap32 X) refclk) = X / refclk ∧
    wrap32 (Int.tdiv (10000 * wrap32 (Int.tmod (wrap32 X) refclk)) refclk) =
      10000 * (X % refclk) / refclk ∧
    0 ≤ 10000 * (X % refclk) / refclk ∧ 10000 * (X % refclk) / refclk ≤ 9999 ∧
    refclk * (10000 * (X / refclk) + 10000 * (X % refclk) / refclk) ≤ 10000 * X ∧
    10000 * X < refclk * (10000 * (X / refclk) + 10000 * (X % refclk) / refclk + 1) := by
  have hne : refclk ≠ 0 := by omega
  have m0 : 0 ≤ X % refclk := Int.emod_nonneg X hne
  have m1 : X % refclk < refclk := Int.emod_lt_of_pos X h0
  have q0 : 0 ≤ X / refclk := Int.ediv_nonneg hX (by omega)
  have q1 : X / refclk ≤ X := Int.ediv_le_self refclk hX
  have d0 : 0 ≤ 10000 * (X % refclk) / refclk := Int.ediv_nonneg (by omega) (by omega)
  have d1 : 10000 * (X % refclk) / refclk < 10000 :=
    Int.ediv_lt_of_lt_mul h0 (by omega)
  have e1 : X % refclk + refclk * (X / refclk) = X := Int.emod_add_ediv X refclk
  have e2 : 10000 * (X % refclk) / refclk * refclk ≤ 10000 * (X % refclk) :=
    Int.ediv_mul_le _ hne
  have e3 : 10000 * (X % refclk) < (10000 * (X % refclk) / refclk + 1) * refclk :=
    Int.lt_ediv_add_one_mul_self _ h0
  have wX : wrap32 X = X := wrap32_of_range (by omega) hX2
  refine ⟨?_, ?_, d0, by omega, ?_, ?_⟩
  · rw [wX, Int.tdiv_eq_ediv hX (by omega)]
    exact wrap32_of_range (by omega) (by omega)
  · have wm : wrap32 (X % refclk) = X % refclk := wrap32_of_range (by omega) (by omega)
    have hd : Int.tdiv (10000 * (X % refclk)) refclk = 10000 * (X % refclk) / refclk :=
      Int.tdiv_eq_ediv (by omega) (by omega)
    rw [wX, Int.tmod_eq_emod hX (by omega), wm, hd]
    exact wrap32_of_range (by omega) (by omega)
  · have : refclk * (10000 * (X / refclk) + 10000 * (X % refclk) / refclk) =
        10000 * (refclk * (X / refclk)) + 10000 * (X % refclk) / refclk * refclk := by ring
    rw [this]
    omega
  · have : refclk * (10000 * (X / refclk) + 10000 * (X % refclk) / refclk + 1) =
        10000 * (refclk * (X / refclk)) + (10000 * (X % refclk) / refclk + 1) * refclk := by
      ring
    rw [this]
    omega

/-- Claim C8: with the clock type `PCM512x_NON_AUDIO_RATE`, a reference clock
`refclk > 0` (the rate of `sclk`, which as an `int` is at most 2^31 - 1) and
`P * pllclk` within the signed 32-bit range, where `pllclk = 4 * freq` for the
unsigned `freq`, `pcm512x_set_sysclk` returns 0 having issued the updates
for `P - 1`, `J`, the two bytes of `D` and `R - 1 = 0`, where
`J = floor(P*pllclk / refclk)`, `D = floor(10000 * ((P*pllclk) mod refclk) / refclk)`,
`0 <= D <= 9999` and
`refclk * (10000*J + D) <= 10000 * P * pllclk < refclk * (10000*J + D + 1)`. -/
theorem C8_pll_multiplier (h : Pcm512xHeader) (s : pcm512x_priv)
    (clk_id : Int) (freq : Int) (dir : Int)
    (hc : s.ctype = (h.PCM512x_NON_AUDIO_RATE : Int))
    (href : 0 < s.sclk_rate) (href2 : s.sclk_rate ≤ 2147483647) (hfreq : 0 ≤ freq)
    (hov : pll_P s.sclk_rate * (4 * freq) ≤ 2147483647) :
    ∃ J D s1,
      pcm512x_set_sysclk h s clk_id freq dir = some (0, s1) ∧
      s1.regmap.log = s.regmap.log ++ sysclk_log h (pll_P s.sclk_rate) J D ∧
      J = pll_P s.sclk_rate * (4 * freq) / s.sclk_rate ∧
      D = 10000 * (pll_P s.sclk_rate * (4 * freq) % s.sclk_rate) / s.sclk_rate ∧
      0 ≤ D ∧ D ≤ 9999 ∧
      s.sclk_rate * (10000 * J + D) ≤ 10000 * (pll_P s.sclk_rate * (4 * freq)) ∧
      10000 * (pll_P s.sclk_rate * (4 * freq)) < s.sclk_rate * (10000 * J + D + 1) := by
  have r0 : (0 : Int) < s.sclk_rate := href
  have r1 : (s.sclk_rate : Int) ≤ 2147483647 := href2
  have wr : wrap32 s.sclk_rate = s.sclk_rate := wrap32_of_range (by omega) r1
  obtain ⟨-, -, p3, -, -⟩ := pll_P_of_pos r0 r1
  have f0 : (0 : Int) ≤ 4 * freq := by omega
  have hX0 : 0 ≤ pll_P s.sclk_rate * (4 * freq) := Int.mul_nonneg (by omega) f0
  have hle : (4 * freq : Int) ≤ pll_P s.sclk_rate * (4 * freq) :=
    le_mul_of_one_le_left f0 p3
  have wf : wrap32 (4 * freq) = 4 * freq := wrap32_of_range (by omega) (by omega)
  obtain ⟨J, D, s1, hJ, hD, e1, -, -, e2⟩ :=
    set_sysclk_non_audio h s clk_id freq dir hc (by rw [wr]; omega)
  obtain ⟨m1, m2, m3, m4, m5, m6⟩ := pll_coefficients_math hX0 hov r0 r1
  rw [wr, wf] at hJ hD
  rw [wr] at e2
  have hJ1 : J = pll_P s.sclk_rate * (4 * freq) / s.sclk_rate := by
    simp only [pll_J, cdiv_of_pos r0, Option.some.injEq] at hJ
    rw [← hJ, m1]
  have hD1 : D = 10000 * (pll_P s.sclk_rate * (4 * freq) % s.sclk_rate) / s.sclk_rate := by
    simp only [pll_D, cmod_of_pos r0, Option.map_some', Option.some.injEq] at hD
    rw [← hD, m2]
  refine ⟨J, D, s1, e1, e2, hJ1, hD1, ?_, ?_, ?_, ?_⟩
  · rw [hD1]; exact m3
  · rw [hD1]; exact m4
  · rw [hJ1, hD1]; exact m5
  · rw [hJ1, hD1]; exact m6

/-- Instance of C8: a 24 MHz reference clock and the 22579200 Hz master clock
give `P = 2`, `J = 7` and `D = 5264`. -/
theorem C8_pll_multiplier_witness :
    ∃ s1, pcm512x_set_sysclk datasheetHeader (sampleState [] 1 0 0) 0 22579200
        SND_SOC_CLOCK_IN = some (0, s1) ∧
      s1.regmap.log = sysclk_log datasheetHeader 2 7 5264 := by
  obtain ⟨J, D, s1, e1, e2, e3, e4, -⟩ :=
    C8_pll_multiplier datasheetHeader (sampleState [] 1 0 0) 0 22579200 SND_SOC_CLOCK_IN
      (by decide) (by decide) (by decide) (by decide) (by decide)
  have hP : pll_P ((sampleState [] 1 0 0).sclk_rate : Int) = 2 := by decide
  have hJ : J = 7 := by rw [e3, hP]; decide
  have hD : D = 5264 := by rw [e4, hP]; decide
  refine ⟨s1, e1, ?_⟩
  rw [e2, hP, hJ, hD]
  rfl

/-! ## The clock ratios of master mode -/

theorem set_sysclk_mclk (h : Pcm512xHeader) (s : pcm512x_priv)
    (clk_id : Int) (freq : Int) (dir : Int) (r : Int × pcm512x_priv)
    (hres : pcm512x_set_sysclk h s clk_id freq dir = some r) :
    r.2.mclk = wrap32 freq ∧ r.2.mode = s.mode := by
  by_cases hc : s.ctype = (h.PCM512x_NON_AUDIO_RATE : Int)
  · have hc0 := set_sysclk_ret_cases h s clk_id freq dir
    rw [hres, if_pos hc] at hc0
    cases hj : pll_J (pll_P (wrap32 s.sclk_rate)) (wrap32 (4 * freq)) (wrap32 s.sclk_rate) with
    | none => simp [hj] at hc0
    | some J =>
      cases hd : pll_D (pll_P (wrap32 s.sclk_rate)) (wrap32 (4 * freq))
          (wrap32 s.sclk_rate) with
      | none => simp [hj, hd] at hc0
      | some D =>
        obtain ⟨s1, e1, e2, e3, -⟩ :=
          set_sysclk_non_audio_of h s clk_id freq dir hc J D hj hd
        rw [hres] at e1
        cases e1
        exact ⟨e2, e3⟩
  · have e1 : pcm512x_set_sysclk h s clk_id freq dir =
        some (0, { s with mclk := wrap32 freq }) := by
      unfold pcm512x_set_sysclk
      dsimp only
      rw [if_neg hc]
    rw [hres] at e1
    generalize wrap32 (freq : Int) = w at e1 ⊢
    cases e1
    exact ⟨rfl, rfl⟩

theorem snd_soc_dai_set_sysclk_single (h : Pcm512xHeader) (s0 s : pcm512x_priv)
    (c : SysclkCall) (hres : snd_soc_dai_set_sysclk h s0 [c] = some s) :
    s.mclk = wrap32 c.freq ∧ s.mode = s0.mode := by
  cases hr : pcm512x_set_sysclk h s0 c.clk_id c.freq c.dir with
  | none =>
    have : snd_soc_dai_set_sysclk h s0 [c] = none := by
      show (pcm512x_set_sysclk h s0 c.clk_id c.freq c.dir).bind _ = none
      rw [hr]; rfl
    rw [this] at hres
    cases hres
  | some r =>
    have : snd_soc_dai_set_sysclk h s0 [c] = some r.2 := by
      show (pcm512x_set_sysclk h s0 c.clk_id c.freq c.dir).bind _ = some r.2
      rw [hr]; rfl
    rw [this] at hres
    cases hres
    exact set_sysclk_mclk h s0 _ _ _ r hr

theorem advertised_ratio_exact {r fb : Int} (hr : r ∈ SNDRV_PCM_RATE_8000_192000)
    (hfb : fb = 32 ∨ fb = 64) :
    ∃ mclk : Int, ∃ ratio : Int,
      (iqaudio_hw_params r).2 = [⟨0, mclk, SND_SOC_CLOCK_IN⟩] ∧
      hw_bclk_mclk_ratio (wrap32 mclk) r fb = some ratio ∧
      ratio * fb * r = wrap32 mclk ∧ 2 ≤ ratio ∧ ratio ≤ 96 := by
  simp only [SNDRV_PCM_RATE_8000_192000, List.mem_cons, List.mem_singleton,
    List.mem_nil_iff, or_false] at hr
  rcases hfb with rfl | rfl <;>
  rcases hr with rfl | rfl | rfl | rfl | rfl | rfl | rfl | rfl | rfl | rfl | rfl | rfl
  all_goals first
    | exact ⟨22579200, _, rfl, rfl, by decide, by decide, by decide⟩
    | exact ⟨24576000, _, rfl, rfl, by decide, by decide, by decide⟩

/-- In master mode, with rate and frame bits positive `int`s and `1024*rate`
within range, `pcm512x_hw_params` returns, and the first two updates it issues
are those of the two clock ratios. -/
theorem hw_params_master_ratios (h : Pcm512xHeader) (s : pcm512x_priv)
    (p : snd_pcm_hw_params) (hm : s.mode = (h.PCM512x_MASTER_MODE : Int))
    (hr : 0 < p.rate) (hr2 : 1024 * p.rate ≤ 2147483647)
    (hf : 0 < p.frame_bits) (hf2 : p.frame_bits ≤ 2147483647) :
    ∃ ratio ret s1 rest,
      hw_bclk_mclk_ratio s.mclk p.rate p.frame_bits = some ratio ∧
      pcm512x_hw_params h s p = some (ret, s1) ∧
      s1.regmap.log = s.regmap.log ++
        [⟨h.PCM512x_MASTER_CLKDIV_1, h.PCM512X_DBCK_MASK, toU32 (ratio - 1)⟩,
         ⟨h.PCM512x_MASTER_CLKDIV_2, h.PCM512X_DLRCK_MASK, toU32 (p.frame_bits - 1)⟩] ++
        rest := by
  obtain ⟨-, -, d3⟩ := hw_divisors_of_bounds hr hr2 hf (by omega)
  have hrp := hw_rate_pos_of_bounds hr hr2
  have hfp := hw_frame_bits_pos_of_bounds hf hf2
  obtain ⟨ratio0, hratio⟩ := @hw_bclk_of_pos s.mclk _ _ hrp hfp
  have wr : wrap32 p.rate = p.rate := wrap32_of_range (by omega) (by omega)
  have wf : wrap32 p.frame_bits = p.frame_bits := wrap32_of_range (by omega) hf2
  cases ha : hw_alen h p.format_width with
  | none =>
    obtain ⟨ratio, s1, e0, e1, e2⟩ := hw_params_master_einval h s p hm ratio0 hratio ha
    rw [wr, wf] at e0
    refine ⟨ratio, -EINVAL, s1, [], e0, e1, ?_⟩
    rw [e2, hw_log_ratios, wf, List.append_nil]
  | some alen =>
    obtain ⟨ratio, ddsp, dosr, idac, s1, e0, -, -, -, e1, e2⟩ :=
      hw_params_master_ok h s p alen hm hrp ratio0 hratio d3 ha
    rw [wr, wf] at e0
    refine ⟨ratio, 0, s1, hw_log_rest h alen ddsp dosr (hw_fssp (wrap32 p.rate)) idac,
      e0, e1, ?_⟩
    rw [e2, hw_log_ratios, wf]

/-- Claim C10: in master mode `pcm512x_hw_params` takes the frame bit count as
the ratio of left/right clock to bit clock and `mclk / rate / frame_bits` as
the ratio of bit clock to system clock, and first issues the updates of
`PCM512x_MASTER_CLKDIV_1` with `bclk_mclk_ratio - 1` and of
`PCM512x_MASTER_CLKDIV_2` with `frame_bits - 1` (for rate and frame bits
positive `int`s and `1024*rate` within range, so that it returns). For every
advertised rate, the master clock `iqaudio_hw_params` has set for it and 32 or
64 frame bits, the division is exact,
`bclk_mclk_ratio * frame_bits * rate = mclk`, and `2 <= bclk_mclk_ratio <= 96`. -/
theorem C10_master_clock_ratios (h : Pcm512xHeader) :
    (∀ (s : pcm512x_priv) (p : snd_pcm_hw_params),
      s.mode = (h.PCM512x_MASTER_MODE : Int) →
      0 < p.rate → 1024 * p.rate ≤ 2147483647 →
      0 < p.frame_bits → p.frame_bits ≤ 2147483647 →
      ∃ ratio ret s1 rest,
        hw_bclk_mclk_ratio s.mclk p.rate p.frame_bits = some ratio ∧
        pcm512x_hw_params h s p = some (ret, s1) ∧
        s1.regmap.log = s.regmap.log ++
          [⟨h.PCM512x_MASTER_CLKDIV_1, h.PCM512X_DBCK_MASK, toU32 (ratio - 1)⟩,
           ⟨h.PCM512x_MASTER_CLKDIV_2, h.PCM512X_DLRCK_MASK,
             toU32 (p.frame_bits - 1)⟩] ++ rest) ∧
    (∀ (s0 s : pcm512x_priv) (p : snd_pcm_hw_params),
      p.rate ∈ SNDRV_PCM_RATE_8000_192000 →
      p.frame_bits = 32 ∨ p.frame_bits = 64 →
      snd_soc_dai_set_sysclk h s0 (iqaudio_hw_params p.rate).2 = some s →
      ∃ ratio,
        hw_bclk_mclk_ratio s.mclk p.rate p.frame_bits = some ratio ∧
        ratio * p.frame_bits * p.rate = s.mclk ∧ 2 ≤ ratio ∧ ratio ≤ 96) := by
  refine ⟨fun s p hm hr hr2 hf hf2 => hw_params_master_ratios h s p hm hr hr2 hf hf2, ?_⟩
  intro s0 s p hr hfb hs
  obtain ⟨mclk, ratio, c1, c2, c3, c4, c5⟩ := advertised_ratio_exact hr hfb
  rw [c1] at hs
  obtain ⟨k1, -⟩ := snd_soc_dai_set_sysclk_single h s0 s _ hs
  have k1 : s.mclk = wrap32 mclk := k1
  rw [← k1] at c2 c3
  exact ⟨ratio, c2, c3, c4, c5⟩

/-- Instance of C10: 48000 Hz with 64 frame bits under the 24576000 Hz master
clock, set by `iqaudio_hw_params`, gives the ratio 8; the values 7 and 63 are
issued first. -/
theorem C10_master_clock_ratios_witness :
    (∃ ret s1 rest,
      pcm512x_hw_params datasheetHeader (sampleState [] 0 0x10c 24576000)
        ⟨48000, 64, 32⟩ = some (ret, s1) ∧
      s1.regmap.log = [⟨0x120, 0x7f, 7⟩, ⟨0x121, 0xff, 63⟩] ++ rest) ∧
    (8 : Int) * 64 * 48000 = (sampleState [] 0 0x10c 24576000).mclk := by
  have h8 : hw_bclk_mclk_ratio (sampleState [] 0 0x10c 24576000).mclk 48000 64 =
      some 8 := by decide
  constructor
  · obtain ⟨ratio, ret, s1, rest, e0, e1, e2⟩ :=
      (C10_master_clock_ratios datasheetHeader).1 (sampleState [] 0 0x10c 24576000)
        ⟨48000, 64, 32⟩ (by decide) (by decide) (by decide) (by decide) (by decide)
    have e0 : hw_bclk_mclk_ratio (sampleState [] 0 0x10c 24576000).mclk 48000 64 =
        some ratio := e0
    rw [h8] at e0
    cases e0
    exact ⟨ret, s1, rest, e1, e2⟩
  · obtain ⟨ratio, e0, e1, -⟩ :=
      (C10_master_clock_ratios datasheetHeader).2 (sampleState [] 0 0x10c 0)
        (sampleState [] 0 0x10c 24576000) ⟨48000, 64, 32⟩ (by decide) (Or.inr rfl) rfl
    have e0 : hw_bclk_mclk_ratio (sampleState [] 0 0x10c 24576000).mclk 48000 64 =
        some ratio := e0
    rw [h8] at e0
    cases e0
    exact e1

/-! ## The DSP clock cycles of one audio frame -/

theorem advertised_idac_exact {r : Int} (hr : r ∈ SNDRV_PCM_RATE_8000_192000) :
    ∃ mclk ddsp idac : Int,
      (iqaudio_hw_params r).2 = [⟨0, mclk, SND_SOC_CLOCK_IN⟩] ∧
      hw_ddsp (wrap32 mclk) (wrap32 r) = some ddsp ∧
      ddsp = max 2 (4 * mclk / (1024 * r)) ∧
      hw_idac (wrap32 mclk) ddsp (wrap32 r) = some idac ∧
      idac = 4 * mclk / ddsp / r ∧
      idac * ddsp * r = 4 * mclk ∧
      (idac = 256 ∨ idac = 512 ∨ idac = 768 ∨ idac = 1024) ∧
      (r ≤ 48000 → idac = 1024) ∧
      (mclk = 22579200 ∨ mclk = 24576000) := by
  simp only [SNDRV_PCM_RATE_8000_192000, List.mem_cons, List.mem_singleton,
    List.mem_nil_iff, or_false] at hr
  rcases hr with rfl | rfl | rfl | rfl | rfl | rfl | rfl | rfl | rfl | rfl | rfl | rfl
  all_goals first
    | exact ⟨22579200, _, _, rfl, rfl, by decide, rfl, by decide, by decide, by decide,
        by decide, Or.inl rfl⟩
    | exact ⟨24576000, _, _, rfl, rfl, by decide, rfl, by decide, by decide, by decide,
        by decide, Or.inr rfl⟩

/-- Claim C11: the value `idac` of `pcm512x_hw_params` is the number of DSP clock
cycles in one audio frame, the DSP clock being the PLL clock `4*mclk` divided by
`ddsp = max(2, floor(4*mclk / (1024*rate)))`:
`idac = floor(floor(4*mclk / ddsp) / rate)`. For every advertised rate with the
master clock `iqaudio_hw_params` selects for it the count is exact,
`idac * ddsp * rate = 4*mclk`, and `idac` is one of 256, 512, 768, 1024 (1024 for
every rate up to 48000); in master mode with a supported sample width
`pcm512x_hw_params` then returns 0 having issued the two updates that carry the
high and the low byte of `idac`. -/
theorem C11_idac_exact (r : Int) (hr : r ∈ SNDRV_PCM_RATE_8000_192000) :
    ∃ mclk ddsp idac : Int,
      (iqaudio_hw_params r).2 = [⟨0, mclk, SND_SOC_CLOCK_IN⟩] ∧
      hw_ddsp (wrap32 mclk) (wrap32 r) = some ddsp ∧
      ddsp = max 2 (4 * mclk / (1024 * r)) ∧
      hw_idac (wrap32 mclk) ddsp (wrap32 r) = some idac ∧
      idac = 4 * mclk / ddsp / r ∧
      idac * ddsp * r = 4 * mclk ∧
      (idac = 256 ∨ idac = 512 ∨ idac = 768 ∨ idac = 1024) ∧
      (r ≤ 48000 → idac = 1024) ∧
      ∀ (h : Pcm512xHeader) (s : pcm512x_priv) (p : snd_pcm_hw_params) (alen : Nat),
        s.mode = (h.PCM512x_MASTER_MODE : Int) → s.mclk = wrap32 mclk → p.rate = r →
        wrap32 p.frame_bits ≠ 0 → hw_alen h p.format_width = some alen →
        ∃ s1, pcm512x_hw_params h s p = some (0, s1) ∧
          (⟨h.PCM512x_IDAC_1, h.PCM512x_IDAC_MASK,
            (toU32 idac &&& (h.PCM512x_IDAC_MASK <<< 8)) >>> 8⟩ : RegUpdate) ∈
            s1.regmap.log ∧
          (⟨h.PCM512x_IDAC_2, h.PCM512x_IDAC_MASK,
            toU32 idac &&& h.PCM512x_IDAC_MASK⟩ : RegUpdate) ∈ s1.regmap.log := by
  have hdiv := advertised_rate_divisors hr
  obtain ⟨mclk, ddsp, idac, c1, c2, c3, c4, c5, c6, c7, c8, c9⟩ := advertised_idac_exact hr
  refine ⟨mclk, ddsp, idac, c1, c2, c3, c4, c5, c6, c7, c8, ?_⟩
  intro h s p alen hm hclk hrate hfb ha
  subst hrate
  have hrange := selected_clock_range c9
  obtain ⟨ratio0, hratio⟩ := @hw_bclk_of_nonneg s.mclk (wrap32 p.rate)
    (wrap32 p.frame_bits) (by rw [hclk]; exact hrange.1) (by rw [hclk]; exact hrange.2)
    hdiv.1 hfb
  obtain ⟨ratio, ddsp1, dosr, idac1, s1, -, e2, -, e4, e5, e6⟩ :=
    hw_params_master_ok h s p alen hm hdiv.1 ratio0 hratio hdiv.2 ha
  rw [hclk, c2] at e2
  cases e2
  rw [hclk, c4] at e4
  cases e4
  refine ⟨s1, e5, ?_, ?_⟩ <;> rw [e6] <;> simp [hw_log_rest]

/-- Instance of C11 at 96000 Hz: the master clock is 24576000 Hz, `ddsp = 2` and
`idac = 512`. -/
theorem C11_idac_exact_witness :
    96000 ∈ SNDRV_PCM_RATE_8000_192000 ∧
    hw_ddsp (wrap32 24576000) (wrap32 96000) = some 2 ∧
    hw_idac (wrap32 24576000) 2 (wrap32 96000) = some 512 := by
  obtain ⟨mclk, ddsp, idac, c1, c2, c3, c4, c5, -⟩ := C11_idac_exact 96000 (by decide)
  have hm : mclk = 24576000 := by
    have : (iqaudio_hw_params 96000).2 = [⟨0, 24576000, SND_SOC_CLOCK_IN⟩] := by decide
    rw [this] at c1
    simpa using c1.symm
  subst hm
  have hd : ddsp = 2 := by rw [c3]; decide
  subst hd
  have hi : idac = 512 := by rw [c5]; decide
  subst hi
  exact ⟨by decide, c2, c4⟩

/-! ## What a rejected call leaves behind -/

theorem fmt_master_switch_mode (h : Pcm512xHeader) (fmt master cfg : Nat) (mode : Int)
    (h1 : fmt_master_switch h fmt = some (master, cfg, mode)) :
    (fmt &&& SND_SOC_DAIFMT_MASTER_MASK = SND_SOC_DAIFMT_CBM_CFM ∧
      mode = (h.PCM512x_MASTER_MODE : Int)) ∨
    (fmt &&& SND_SOC_DAIFMT_MASTER_MASK = SND_SOC_DAIFMT_CBS_CFS ∧
      mode = (h.PCM512x_SLAVE_MODE : Int)) := by
  unfold fmt_master_switch at h1
  dsimp only at h1
  split_ifs at h1 with c1 c2
  · simp only [Option.some.injEq, Prod.mk.injEq] at h1
    exact Or.inl ⟨c1, h1.2.2.symm⟩
  · simp only [Option.some.injEq, Prod.mk.injEq] at h1
    exact Or.inr ⟨c2, h1.2.2.symm⟩

theorem fmt_master_switch_none (h : Pcm512xHeader) (fmt : Nat)
    (h1 : fmt_master_switch h fmt = none) :
    fmt &&& SND_SOC_DAIFMT_MASTER_MASK ≠ SND_SOC_DAIFMT_CBM_CFM ∧
    fmt &&& SND_SOC_DAIFMT_MASTER_MASK ≠ SND_SOC_DAIFMT_CBS_CFS := by
  unfold fmt_master_switch at h1
  dsimp only at h1
  split_ifs at h1 with c1 c2
  exact ⟨c1, c2⟩

/-- Claim C12 fails as stated: from a state whose mode is 0, the format
`SND_SOC_DAIFMT_CBM_CFM` with the unsupported format field 0 is rejected with
`-EINVAL`, yet the stored mode has become `PCM512x_MASTER_MODE`. -/
theorem C12_mode_overwritten_on_einval :
    (pcm512x_set_dai_fmt datasheetHeader (sampleState [] 0 0 0)
      SND_SOC_DAIFMT_CBM_CFM).1 = -EINVAL ∧
    (sampleState [] 0 0 0).mode = 0 ∧
    (pcm512x_set_dai_fmt datasheetHeader (sampleState [] 0 0 0)
      SND_SOC_DAIFMT_CBM_CFM).2.mode = (datasheetHeader.PCM512x_MASTER_MODE : Int) ∧
    (pcm512x_set_dai_fmt datasheetHeader (sampleState [] 0 0 0)
      SND_SOC_DAIFMT_CBM_CFM).2.mode ≠ (sampleState [] 0 0 0).mode := by
  decide

/-- Claim C12, amended: when `pcm512x_set_dai_fmt` returns `-EINVAL` no register
update has been issued, the register map and the other fields of the driver
state are as before, and the stored mode equals its prior value if the master
field of `fmt` is unsupported; if the master field is `SND_SOC_DAIFMT_CBM_CFM`
or `SND_SOC_DAIFMT_CBS_CFS` (and the format or inversion field is unsupported)
the stored mode is already `PCM512x_MASTER_MODE` or `PCM512x_SLAVE_MODE`. -/
theorem C12_set_dai_fmt_on_einval (h : Pcm512xHeader) (s : pcm512x_priv) (fmt : Nat)
    (hret : (pcm512x_set_dai_fmt h s fmt).1 = -EINVAL) :
    (pcm512x_set_dai_fmt h s fmt).2.regmap.regs = s.regmap.regs ∧
    (pcm512x_set_dai_fmt h s fmt).2.regmap.log = s.regmap.log ∧
    (pcm512x_set_dai_fmt h s fmt).2.regmap.faults = s.regmap.faults ∧
    (pcm512x_set_dai_fmt h s fmt).2.mclk = s.mclk ∧
    (pcm512x_set_dai_fmt h s fmt).2.ctype = s.ctype ∧
    (pcm512x_set_dai_fmt h s fmt).2.sclk_rate = s.sclk_rate ∧
    (fmt &&& SND_SOC_DAIFMT_MASTER_MASK ≠ SND_SOC_DAIFMT_CBM_CFM →
      fmt &&& SND_SOC_DAIFMT_MASTER_MASK ≠ SND_SOC_DAIFMT_CBS_CFS →
      (pcm512x_set_dai_fmt h s fmt).2.mode = s.mode) ∧
    (fmt &&& SND_SOC_DAIFMT_MASTER_MASK = SND_SOC_DAIFMT_CBM_CFM →
      (pcm512x_set_dai_fmt h s fmt).2.mode = (h.PCM512x_MASTER_MODE : Int)) ∧
    (fmt &&& SND_SOC_DAIFMT_MASTER_MASK = SND_SOC_DAIFMT_CBS_CFS →
      (pcm512x_set_dai_fmt h s fmt).2.mode = (h.PCM512x_SLAVE_MODE : Int)) := by
  have hdiff : SND_SOC_DAIFMT_CBM_CFM ≠ SND_SOC_DAIFMT_CBS_CFS := by decide
  unfold pcm512x_set_dai_fmt at hret ⊢
  cases h1 : fmt_master_switch h fmt with
  | none =>
    obtain ⟨n1, n2⟩ := fmt_master_switch_none h fmt h1
    simp only [h1]
    exact ⟨trivial, trivial, trivial, trivial, trivial, trivial, fun _ _ => trivial,
      fun c => absurd c n1, fun c => absurd c n2⟩
  | some t =>
    obtain ⟨master, cfg, mode⟩ := t
    have hmode := fmt_master_switch_mode h fmt master cfg mode h1
    have hm1 : fmt &&& SND_SOC_DAIFMT_MASTER_MASK = SND_SOC_DAIFMT_CBM_CFM →
        mode = (h.PCM512x_MASTER_MODE : Int) := by
      intro c
      rcases hmode with ⟨-, e⟩ | ⟨c2, -⟩
      · exact e
      · exact absurd (c.symm.trans c2) hdiff
    have hm2 : fmt &&& SND_SOC_DAIFMT_MASTER_MASK = SND_SOC_DAIFMT_CBS_CFS →
        mode = (h.PCM512x_SLAVE_MODE : Int) := by
      intro c
      rcases hmode with ⟨c1, -⟩ | ⟨-, e⟩
      · exact absurd (c1.symm.trans c) hdiff
      · exact e
    have hm0 : fmt &&& SND_SOC_DAIFMT_MASTER_MASK ≠ SND_SOC_DAIFMT_CBM_CFM →
        fmt &&& SND_SOC_DAIFMT_MASTER_MASK ≠ SND_SOC_DAIFMT_CBS_CFS → mode = s.mode := by
      intro n1 n2
      rcases hmode with ⟨c1, -⟩ | ⟨c2, -⟩
      · exact absurd c1 n1
      · exact absurd c2 n2
    cases h2 : fmt_format_switch h fmt with
    | none =>
      simp only [h1, h2]
      exact ⟨trivial, trivial, trivial, trivial, trivial, trivial, hm0, hm1, hm2⟩
    | some i2s =>
      cases h3 : fmt_inv_switch h fmt cfg with
      | none =>
        simp only [h1, h2, h3]
        exact ⟨trivial, trivial, trivial, trivial, trivial, trivial, hm0, hm1, hm2⟩
      | some c =>
        simp only [h1, h2, h3] at hret
        exact absurd hret.symm neg_EINVAL_ne_zero

/-- Instance of C12: the rejected format `SND_SOC_DAIFMT_CBM_CFM` (format field 0)
leaves the log empty and the mode at `PCM512x_MASTER_MODE`. -/
theorem C12_set_dai_fmt_on_einval_witness :
    (pcm512x_set_dai_fmt datasheetHeader (sampleState [] 0 0 0)
      SND_SOC_DAIFMT_CBM_CFM).2.regmap.log = [] ∧
    (pcm512x_set_dai_fmt datasheetHeader (sampleState [] 0 0 0)
      SND_SOC_DAIFMT_CBM_CFM).2.mode = (datasheetHeader.PCM512x_MASTER_MODE : Int) :=
  ⟨(C12_set_dai_fmt_on_einval datasheetHeader (sampleState [] 0 0 0)
      SND_SOC_DAIFMT_CBM_CFM (by decide)).2.1,
   (C12_set_dai_fmt_on_einval datasheetHeader (sampleState [] 0 0 0)
      SND_SOC_DAIFMT_CBM_CFM (by decide)).2.2.2.2.2.2.2.1 (by decide)⟩

theorem regmap_update_bits_regs_other (map : Regmap) (reg mask val r : Nat)
    (hr : r ≠ reg) : (regmap_update_bits map reg mask val).2.regs r = map.regs r := by
  unfold regmap_update_bits
  dsimp only
  split_ifs with hf
  · rfl
  · exact if_neg hr

/-- A call of `pcm512x_hw_params` that returns `-EINVAL` was made in master mode
with an unsupported width, after the two ratio updates and nothing else. -/
theorem hw_params_einval_inv (h : Pcm512xHeader) (s s1 : pcm512x_priv)
    (p : snd_pcm_hw_params) (hres : pcm512x_hw_params h s p = some (-EINVAL, s1)) :
    s.mode = (h.PCM512x_MASTER_MODE : Int) ∧ hw_alen h p.format_width = none ∧
    ∃ ratio, hw_bclk_mclk_ratio s.mclk (wrap32 p.rate) (wrap32 p.frame_bits) = some ratio ∧
      s1 = { s with regmap :=
        (regmap_update_bits
          (regmap_update_bits s.regmap h.PCM512x_MASTER_CLKDIV_1 h.PCM512X_DBCK_MASK
            (toU32 (ratio - 1))).2
          h.PCM512x_MASTER_CLKDIV_2 h.PCM512X_DLRCK_MASK
          (toU32 (wrap32 p.frame_bits - 1))).2 } := by
  have hcode := hw_params_ret_cases h s p
  unfold pcm512x_hw_params at hres
  by_cases hm : s.mode = (h.PCM512x_MASTER_MODE : Int)
  · rw [if_pos hm] at hres
    cases h1 : hw_bclk_mclk_ratio s.mclk (wrap32 p.rate) (wrap32 p.frame_bits) with
    | none => simp [h1] at hres
    | some ratio =>
      cases h2 : hw_alen h p.format_width with
      | none =>
        simp only [h1, h2, Option.bind_eq_bind, Option.some_bind, bind, pure,
          Option.some.injEq, Prod.mk.injEq, true_and] at hres
        exact ⟨hm, rfl, ratio, rfl, hres.symm⟩
      | some alen =>
        exfalso
        rw [if_pos hm, h1, h2] at hcode
        have hfst : (pcm512x_hw_params h s p).map Prod.fst = some (-EINVAL) := by
          unfold pcm512x_hw_params
          rw [if_pos hm, hres]
          rfl
        rw [hfst] at hcode
        cases hd : hw_ddsp s.mclk (wrap32 p.rate) with
        | none => simp [hd] at hcode
        | some ddsp =>
          cases ho : hw_dosr s.mclk (wrap32 p.rate) with
          | none => simp [hd, ho] at hcode
          | some dosr =>
            cases hi : hw_idac s.mclk ddsp (wrap32 p.rate) with
            | none => simp [hd, ho, hi] at hcode
            | some idac =>
              simp only [hd, ho, hi, Option.some_bind, Option.some.injEq] at hcode
              exact neg_EINVAL_ne_zero hcode
  · rw [if_neg hm] at hres
    simp only [Option.some.injEq, Prod.mk.injEq] at hres
    exact absurd hres.1.symm neg_EINVAL_ne_zero

/-- Claim C13 fails as stated: in master mode at 48000 Hz with 64 frame bits and
the unsupported width 8, `pcm512x_hw_params` returns `-EINVAL` after it has
changed `PCM512x_MASTER_CLKDIV_1` from 0 to 7 and `PCM512x_MASTER_CLKDIV_2` from
0 to 63. -/
theorem C13_registers_written_before_einval :
    0 < (⟨48000, 64, 8⟩ : snd_pcm_hw_params).rate ∧
    0 < (⟨48000, 64, 8⟩ : snd_pcm_hw_params).frame_bits ∧
    (sampleState [] 0 0x10c 24576000).regmap.regs
      datasheetHeader.PCM512x_MASTER_CLKDIV_1 = 0 ∧
    (sampleState [] 0 0x10c 24576000).regmap.regs
      datasheetHeader.PCM512x_MASTER_CLKDIV_2 = 0 ∧
    (pcm512x_hw_params datasheetHeader (sampleState [] 0 0x10c 24576000)
      ⟨48000, 64, 8⟩).map
        (fun r => (r.1, r.2.regmap.regs datasheetHeader.PCM512x_MASTER_CLKDIV_1,
          r.2.regmap.regs datasheetHeader.PCM512x_MASTER_CLKDIV_2)) =
      some (-EINVAL, 7, 63) := by
  decide

/-- Claim C13, amended: when `pcm512x_hw_params` returns `-EINVAL` it has issued
the updates of `PCM512x_MASTER_CLKDIV_1` (with `bclk_mclk_ratio - 1`) and of
`PCM512x_MASTER_CLKDIV_2` (with `frame_bits - 1`) and no other: every register
but these two holds its prior value, and the mode, the master clock, the clock
type and the reference clock of the driver state are unchanged. -/
theorem C13_hw_params_on_einval (h : Pcm512xHeader) (s s1 : pcm512x_priv)
    (p : snd_pcm_hw_params) (hres : pcm512x_hw_params h s p = some (-EINVAL, s1)) :
    (∃ ratio,
      hw_bclk_mclk_ratio s.mclk (wrap32 p.rate) (wrap32 p.frame_bits) = some ratio ∧
      s1.regmap.log = s.regmap.log ++ hw_log_ratios h ratio (wrap32 p.frame_bits)) ∧
    (∀ r, r ≠ h.PCM512x_MASTER_CLKDIV_1 → r ≠ h.PCM512x_MASTER_CLKDIV_2 →
      s1.regmap.regs r = s.regmap.regs r) ∧
    s1.mode = s.mode ∧ s1.mclk = s.mclk ∧ s1.ctype = s.ctype ∧
    s1.sclk_rate = s.sclk_rate := by
  obtain ⟨-, -, ratio, hratio, hs1⟩ := hw_params_einval_inv h s s1 p hres
  rw [hs1]
  refine ⟨⟨ratio, hratio, ?_⟩, ?_, rfl, rfl, rfl, rfl⟩
  · simp [regmap_update_bits_log, hw_log_ratios]
  · intro r hr1 hr2
    show (regmap_update_bits _ _ _ _).2.regs r = _
    rw [regmap_update_bits_regs_other _ _ _ _ _ hr2,
      regmap_update_bits_regs_other _ _ _ _ _ hr1]

/-- Instance of C13: the rejected call at 48000 Hz, 64 frame bits, width 8 has
issued exactly the updates with 7 and 63, and register `PCM512x_IDAC_1` is as
before. -/
theorem C13_hw_params_on_einval_witness :
    ∃ s1, pcm512x_hw_params datasheetHeader (sampleState [] 0 0x10c 24576000)
        ⟨48000, 64, 8⟩ = some (-EINVAL, s1) ∧
      s1.regmap.log = hw_log_ratios datasheetHeader 8 64 ∧
      s1.regmap.regs datasheetHeader.PCM512x_IDAC_1 = 0 := by
  obtain ⟨ratio, s1, e0, e1, -⟩ :=
    hw_params_master_einval datasheetHeader (sampleState [] 0 0x10c 24576000)
      ⟨48000, 64, 8⟩ (by decide) 8 (by decide) (by decide)
  obtain ⟨⟨ratio1, f0, f1⟩, f2, -⟩ :=
    C13_hw_params_on_einval datasheetHeader (sampleState [] 0 0x10c 24576000) s1
      ⟨48000, 64, 8⟩ e1
  have h8 : hw_bclk_mclk_ratio (sampleState [] 0 0x10c 24576000).mclk
      (wrap32 48000) (wrap32 64) = some 8 := by decide
  have f0 : hw_bclk_mclk_ratio (sampleState [] 0 0x10c 24576000).mclk
      (wrap32 48000) (wrap32 64) = some ratio1 := f0
  rw [h8] at f0
  cases f0
  refine ⟨s1, e1, ?_, ?_⟩
  · rw [f1]
    rfl
  · rw [f2 _ (by decide) (by decide)]
    rfl

/-! ## The PLL multiplier for the two master clocks -/

theorem pll_J_two_clocks {refclk pllclk : Int}
    (hp : pllclk = 90316800 ∨ pllclk = 98304000)
    (h1 : 20000000 < refclk) (h2 : refclk ≤ 400000000) :
    pll_P refclk * pllclk ≤ 2147483647 ∧
    wrap32 (Int.tdiv (wrap32 (pll_P refclk * pllclk)) refclk) =
      pll_P refclk * pllclk / refclk ∧
    4 ≤ pll_P refclk * pllclk / refclk ∧ pll_P refclk * pllclk / refclk ≤ 9 := by
  have h0 : 0 < refclk := by omega
  obtain ⟨-, pP, -, -, -⟩ := pll_P_of_pos h0 (by omega)
  have hP : pll_P refclk = refclk / 20000000 + 1 := pP h1
  have hX : pll_P refclk * pllclk = (refclk / 20000000 + 1) * pllclk := by rw [hP]
  have hlo : 4 * refclk ≤ pll_P refclk * pllclk := by
    rw [hX]
    rcases hp with rfl | rfl <;> omega
  have hhi : pll_P refclk * pllclk < 10 * refclk := by
    rw [hX]
    rcases hp with rfl | rfl <;> omega
  have hov : pll_P refclk * pllclk ≤ 2147483647 := by
    rw [hX]
    rcases hp with rfl | rfl <;> omega
  obtain ⟨m1, -⟩ := @pll_coefficients_math (pll_P refclk * pllclk) refclk (by omega) hov h0
    (by omega)
  refine ⟨hov, m1, (Int.le_ediv_iff_mul_le h0).2 hlo, ?_⟩
  have := Int.ediv_lt_of_lt_mul h0 hhi
  omega

/-- Claim C14: for each of the two master clocks the machine driver can select
(`freq` 22579200 or 24576000, `pllclk = 4*freq`) and every reference clock with
`20000000 < refclk <= 400000000`, the computation of `pcm512x_set_sysclk` stays
within signed 32-bit arithmetic, `P * pllclk <= 2^31 - 1`, and the integer
multiplier it derives and issues to `PCM512x_PLL_COEFF_1` satisfies
`4 <= J <= 9`. -/
theorem C14_pll_no_overflow (refclk freq : Int)
    (hf : freq = 22579200 ∨ freq = 24576000)
    (h1 : 20000000 < refclk) (h2 : refclk ≤ 400000000) :
    pll_P refclk * (4 * freq) ≤ 2147483647 ∧
    ∃ J, pll_J (pll_P refclk) (wrap32 (4 * freq)) refclk = some J ∧
      J = pll_P refclk * (4 * freq) / refclk ∧ 4 ≤ J ∧ J ≤ 9 ∧
      ∀ (h : Pcm512xHeader) (s : pcm512x_priv) (clk_id dir : Int),
        s.ctype = (h.PCM512x_NON_AUDIO_RATE : Int) → s.sclk_rate = refclk →
        ∃ D s1, pcm512x_set_sysclk h s clk_id freq dir = some (0, s1) ∧
          s1.regmap.log = s.regmap.log ++ sysclk_log h (pll_P refclk) J D := by
  have hp : 4 * freq = 90316800 ∨ 4 * freq = 98304000 := by omega
  have wf : wrap32 (4 * freq) = 4 * freq := wrap32_of_range (by omega) (by omega)
  have wr : wrap32 refclk = refclk := wrap32_of_range (by omega) (by omega)
  have h0 : 0 < refclk := by omega
  obtain ⟨hov, m1, lo, hi⟩ := pll_J_two_clocks hp h1 h2
  have hJ : pll_J (pll_P refclk) (wrap32 (4 * freq)) refclk =
      some (pll_P refclk * (4 * freq) / refclk) := by
    rw [wf, pll_J, cdiv_of_pos h0, m1]
  refine ⟨hov, _, hJ, rfl, lo, hi, ?_⟩
  intro h s clk_id dir hc hs
  subst hs
  obtain ⟨J1, D, s1, e1, -, e3, -, -, e6⟩ :=
    set_sysclk_non_audio h s clk_id freq dir hc (by rw [wr]; exact h0)
  rw [wr] at e1 e6
  rw [hJ] at e1
  cases e1
  exact ⟨D, s1, e3, e6⟩

/-- Instance of C14: a 24 MHz reference clock with the 24576000 Hz master clock
gives `P * pllclk = 196608000` and `J = 8`. -/
theorem C14_pll_no_overflow_witness :
    pll_P 24000000 * (4 * 24576000) ≤ 2147483647 ∧
    pll_J (pll_P 24000000) (wrap32 (4 * 24576000)) 24000000 = some 8 := by
  obtain ⟨c1, J, c2, c3, -⟩ :=
    C14_pll_no_overflow 24000000 24576000 (Or.inr rfl) (by decide) (by decide)
  have hJ : J = 8 := by rw [c3]; decide
  rw [hJ] at c2
  exact ⟨c1, c2⟩

/-! ## No division by zero in `pcm512x_hw_params` -/

theorem hw_ddsp_idac_values {mclk rate : Int} (hm0 : 0 ≤ mclk)
    (hm4 : 4 * mclk ≤ 2147483647) (hr : 0 < rate) (hr2 : 1024 * rate ≤ 2147483647) :
    hw_ddsp mclk rate = some (max 2 (4 * mclk / (1024 * rate))) ∧
    2 ≤ max 2 (4 * mclk / (1024 * rate)) ∧
    max 2 (4 * mclk / (1024 * rate)) ≤ 2147483647 ∧
    hw_idac mclk (max 2 (4 * mclk / (1024 * rate))) rate =
      some (4 * mclk / max 2 (4 * mclk / (1024 * rate)) / rate) := by
  have w4 : wrap32 (4 * mclk) = 4 * mclk := wrap32_of_range (by omega) hm4
  have w1024 : wrap32 (1024 * rate) = 1024 * rate := wrap32_of_range (by omega) hr2
  have q0 : 0 ≤ 4 * mclk / (1024 * rate) := Int.ediv_nonneg (by omega) (by omega)
  have q1 : 4 * mclk / (1024 * rate) ≤ 4 * mclk := Int.ediv_le_self _ (by omega)
  have hmax : (if 4 * mclk / (1024 * rate) < 2 then 2 else 4 * mclk / (1024 * rate)) =
      max 2 (4 * mclk / (1024 * rate)) := by
    rw [max_def]
    split_ifs <;> omega
  have d2 : 2 ≤ max 2 (4 * mclk / (1024 * rate)) := le_max_left _ _
  have d3 : max 2 (4 * mclk / (1024 * rate)) ≤ 2147483647 := max_le (by omega) (by omega)
  have i0 : 0 ≤ 4 * mclk / max 2 (4 * mclk / (1024 * rate)) :=
    Int.ediv_nonneg (by omega) (by omega)
  have i1 : 4 * mclk / max 2 (4 * mclk / (1024 * rate)) ≤ 4 * mclk :=
    Int.ediv_le_self _ (by omega)
  refine ⟨?_, d2, d3, ?_⟩
  · unfold hw_ddsp
    rw [w4, w1024, cdiv_of_nonneg (by omega) hm4 (by omega), Option.map_some', hmax]
  · unfold hw_idac
    rw [w4, cdiv_of_nonneg (by omega) hm4 (by omega), Option.some_bind,
      cdiv_of_nonneg i0 (by omega) hr]

/-- Claim C15: `pcm512x_hw_params` never divides by zero when rate > 0 and frame
bits > 0. For every `mclk >= 0` with `4*mclk` and `1024*rate` (hence `64*rate`)
within signed 32 bits, the divisors `rate`, `frame_bits`, `1024*rate` and
`64*rate` are non-zero, the clamped DSP divider is
`ddsp = max(2, 4*mclk / (1024*rate)) >= 2`, so `4*mclk / ddsp / rate` is defined
and the value `ddsp - 1` for the DSP clock divider is at least 1; the function
returns. -/
theorem C15_hw_params_no_zero_divisor (h : Pcm512xHeader) (s : pcm512x_priv)
    (p : snd_pcm_hw_params) (hm0 : 0 ≤ s.mclk) (hm4 : 4 * s.mclk ≤ 2147483647)
    (hr : 0 < p.rate) (hr2 : 1024 * p.rate ≤ 2147483647)
    (hf : 0 < p.frame_bits) (hf2 : p.frame_bits ≤ 4294967295) :
    (wrap32 p.rate ≠ 0 ∧ wrap32 p.frame_bits ≠ 0 ∧
      wrap32 (1024 * wrap32 p.rate) ≠ 0 ∧ wrap32 (64 * wrap32 p.rate) ≠ 0) ∧
    (∃ ddsp idac,
      hw_ddsp s.mclk (wrap32 p.rate) = some ddsp ∧
      ddsp = max 2 (4 * s.mclk / (1024 * p.rate)) ∧ 2 ≤ ddsp ∧
      1 ≤ toU32 (ddsp - 1) ∧
      hw_idac s.mclk ddsp (wrap32 p.rate) = some idac ∧
      idac = 4 * s.mclk / ddsp / p.rate) ∧
    (∃ ret s1, pcm512x_hw_params h s p = some (ret, s1)) := by
  obtain ⟨d1, d2, d3⟩ := hw_divisors_of_bounds hr hr2 hf hf2
  have d4 := wrap32_64_ne d3
  have hrp := hw_rate_pos_of_bounds hr hr2
  obtain ⟨ratio0, hratio⟩ := @hw_bclk_of_nonneg s.mclk (wrap32 p.rate)
    (wrap32 p.frame_bits) hm0 (by omega) hrp d2
  have wr : wrap32 p.rate = p.rate := wrap32_of_range (by omega) (by omega)
  obtain ⟨v1, v2, v3, v4⟩ := hw_ddsp_idac_values hm0 hm4 hr hr2
  refine ⟨⟨d1, d2, d3, d4⟩, ⟨_, _, by rw [wr]; exact v1, rfl, v2, ?_, by rw [wr]; exact v4,
    rfl⟩, ?_⟩
  · rw [toU32_of_range (by omega) (by omega)]
    omega
  · by_cases hm : s.mode = (h.PCM512x_MASTER_MODE : Int)
    · cases ha : hw_alen h p.format_width with
      | none =>
        obtain ⟨-, s1, -, e1, -⟩ := hw_params_master_einval h s p hm ratio0 hratio ha
        exact ⟨_, s1, e1⟩
      | some alen =>
        obtain ⟨-, -, -, -, s1, -, -, -, -, e1, -⟩ :=
          hw_params_master_ok h s p alen hm hrp ratio0 hratio d3 ha
        exact ⟨_, s1, e1⟩
    · refine ⟨0, s, ?_⟩
      unfold pcm512x_hw_params
      rw [if_neg hm]

/-- Instance of C15: 24576000 Hz, rate 192000 and 64 frame bits give the clamped
divider `ddsp = 2` and `idac = 256`. -/
theorem C15_hw_params_no_zero_divisor_witness :
    hw_ddsp 24576000 (wrap32 192000) = some 2 ∧
    hw_idac 24576000 2 (wrap32 192000) = some 256 ∧
    ∃ ret s1, pcm512x_hw_params datasheetHeader (sampleState [] 0 0x10c 24576000)
      ⟨192000, 64, 32⟩ = some (ret, s1) := by
  obtain ⟨-, ⟨ddsp, idac, c1, c2, -, -, c5, c6⟩, c7⟩ :=
    C15_hw_params_no_zero_divisor datasheetHeader (sampleState [] 0 0x10c 24576000)
      ⟨192000, 64, 32⟩ (by decide) (by decide) (by decide) (by decide) (by decide)
      (by decide)
  have hd : ddsp = 2 := by rw [c2]; decide
  subst hd
  have hi : idac = 256 := by rw [c6]; decide
  subst hi
  exact ⟨c1, c5, c7⟩

end BbbDac
